import Mathlib

/-!
Terabox relay bot: admission control and download orchestration.

A shallow embedding of the JavaScript sources of the bot
(`config/config.js`, `utils/rateLimiter.js`, `handlers/userHandler.js`,
`middlewares/authMiddleware.js`, `services/telegramService.js`,
`services/teraboxService.js`, `handlers/linkHandler.js`,
`handlers/commandHandlers.js`) followed by theorems about it.

Conventions of the embedding.

* `Date.now()` is a natural number of milliseconds; every function that reads the
  clock takes the reading as an argument `now`.  Differences of timestamps and the
  configured durations are integers, as the JavaScript subtraction may go negative.
* A JavaScript `Map` keyed by user id is a function `UserId → Option β`; a `Set` of
  user ids is a duplicate-free list in insertion order.
* Module-level mutable state is passed explicitly.
* Asynchronous functions that talk to collaborators run in the monad `Act`: a state
  transformer over `World` that can end with a thrown error while keeping the state
  reached so far.  Every collaborator call is recorded in `World.trace`.
* One handler runs at a time: no other handler changes the state between two steps of a
  handler.
* The file system is a map from paths to file sizes.  `statSync` and `unlinkSync` succeed
  on an existing file and throw on a missing one; `existsSync` never throws.  Calls of
  `logger` and `console` have no effect on the state and do not throw.
-/

set_option autoImplicit false

namespace TeraboxBot

/-! ## config/config.js -/

/-- Telegram user id (`ctx.from.id`). -/
abbrev UserId := Nat

/-- Channel id, a string read from the process environment. -/
abbrev ChannelId := String

/-- One element of `config.privateChannels`. -/
structure Channel where
  id : ChannelId
  name : String
  inviteLink : String
  required : Bool
  deriving DecidableEq, Repr

/-- The object `config.terabox`. -/
structure TeraboxConfig where
  downloadTimeout : Int
  maxFileSize : Nat
  concurrentDownloads : Nat
  retryAttempts : Nat
  retryDelay : Int
  deriving DecidableEq, Repr

/-- The object `config.telegram`. -/
structure TelegramConfig where
  maxFileSize : Nat
  maxPhotoSize : Nat
  maxVideoSize : Nat
  maxDocumentSize : Nat
  deriving DecidableEq, Repr

/-- The object `config.verification`. -/
structure VerificationConfig where
  maxAttempts : Nat
  cooldownTime : Int
  checkInterval : Int
  deriving DecidableEq, Repr

/-- The object `config.rateLimit`. -/
structure RateLimitConfig where
  maxRequests : Nat
  timeWindow : Int
  deriving DecidableEq, Repr

/-- The object `config.storage`. -/
structure StorageConfig where
  tempDir : String
  cleanupInterval : Int
  deriving DecidableEq, Repr

/-- The object exported by `config/config.js`. -/
structure Config where
  privateChannels : List Channel
  terabox : TeraboxConfig
  telegram : TelegramConfig
  verification : VerificationConfig
  rateLimit : RateLimitConfig
  storage : StorageConfig
  deriving DecidableEq, Repr

/-- The variables of `process.env` that `config.js` reads for the channel list and the
temp directory (`tempDir` is `process.env.TEMP_DIR || '/tmp/terabox_downloads'`, already
resolved). -/
structure ProcessEnv where
  channel1Id : ChannelId
  channel1InviteLink : String
  channel2Id : ChannelId
  channel2InviteLink : String
  channel3Id : ChannelId
  channel3InviteLink : String
  channel4Id : ChannelId
  channel4InviteLink : String
  group1Id : ChannelId
  group1InviteLink : String
  tempDir : String

/-- The configuration as shipped in `config/config.js`. -/
def config (env : ProcessEnv) : Config where
  privateChannels :=
    [ { id := env.channel1Id, name := "Premium Channel 1",
        inviteLink := env.channel1InviteLink, required := true },
      { id := env.channel2Id, name := "Premium Channel 2",
        inviteLink := env.channel2InviteLink, required := true },
      { id := env.channel3Id, name := "Exclusive Content",
        inviteLink := env.channel3InviteLink, required := true },
      { id := env.channel4Id, name := "VIP Access",
        inviteLink := env.channel4InviteLink, required := true },
      { id := env.group1Id, name := "Premium Community",
        inviteLink := env.group1InviteLink, required := false } ]
  terabox :=
    { downloadTimeout := 300000, maxFileSize := 2000 * 1024 * 1024,
      concurrentDownloads := 3, retryAttempts := 3, retryDelay := 5000 }
  telegram :=
    { maxFileSize := 2000 * 1024 * 1024, maxPhotoSize := 10 * 1024 * 1024,
      maxVideoSize := 2000 * 1024 * 1024, maxDocumentSize := 2000 * 1024 * 1024 }
  verification := { maxAttempts := 3, cooldownTime := 300000, checkInterval := 60000 }
  rateLimit := { maxRequests := 5, timeWindow := 60000 }
  storage := { tempDir := env.tempDir, cleanupInterval := 3600000 }

/-- A sample environment: five distinct channel ids and the default temp directory. -/
def sampleEnv : ProcessEnv where
  channel1Id := "-1001"
  channel1InviteLink := "https://t.me/+c1"
  channel2Id := "-1002"
  channel2InviteLink := "https://t.me/+c2"
  channel3Id := "-1003"
  channel3InviteLink := "https://t.me/+c3"
  channel4Id := "-1004"
  channel4InviteLink := "https://t.me/+c4"
  group1Id := "-2001"
  group1InviteLink := "https://t.me/+g1"
  tempDir := "/tmp/terabox_downloads"

/-! ## JavaScript `Map` and `Set` keyed by user id -/

/-- A `Map` from user ids to `β`: `none` is an absent key. -/
abbrev JsMap (β : Type) := UserId → Option β

/-- The map `new Map()`. -/
def JsMap.empty {β : Type} : JsMap β := fun _ => none

/-- The call `map.set(key, value)`. -/
def JsMap.set {β : Type} (m : JsMap β) (key : UserId) (value : β) : JsMap β :=
  fun k => if k = key then some value else m k

/-- The call `map.delete(key)`. -/
def JsMap.delete {β : Type} (m : JsMap β) (key : UserId) : JsMap β :=
  fun k => if k = key then none else m k

/-- A `Set` of user ids, in insertion order. -/
abbrev JsSet := List UserId

/-- The call `set.add(x)`: no effect if `x` is already an element. -/
def JsSet.add (s : JsSet) (x : UserId) : JsSet :=
  if x ∈ s then s else s ++ [x]

/-- The call `set.has(x)`. -/
def JsSet.has (s : JsSet) (x : UserId) : Bool :=
  decide (x ∈ s)

/-- The call `set.delete(x)`. -/
def JsSet.delete (s : JsSet) (x : UserId) : JsSet :=
  s.filter (fun y => decide (y ≠ x))

/-! ## utils/rateLimiter.js -/

/-- The module variable `userRequests`: request timestamps per user. -/
abbrev RateStore := JsMap (List Nat)

/-- The predicate `time => now - time < window` used by the three filters of the module. -/
def within (window : Int) (now : Nat) (time : Nat) : Bool :=
  decide ((now : Int) - (time : Int) < window)

/-- The function `isRateLimited(userId)`, the clock reading `now` made explicit. -/
def isRateLimited (cfg : Config) (now : Nat) (userRequests : RateStore) (userId : UserId) :
    Bool :=
  let userRequestTimes := (userRequests userId).getD []
  let recentRequests := userRequestTimes.filter (within cfg.rateLimit.timeWindow now)
  decide (recentRequests.length ≥ cfg.rateLimit.maxRequests)

/-- The function `updateRateLimit(userId)`: push `now`, filter, store. -/
def updateRateLimit (cfg : Config) (now : Nat) (userRequests : RateStore) (userId : UserId) :
    RateStore :=
  let userRequestTimes := (userRequests userId).getD [] ++ [now]
  let recentRequests := userRequestTimes.filter (within cfg.rateLimit.timeWindow now)
  userRequests.set userId recentRequests

/-- The function `cleanupRateLimitData()`.  The loop treats every entry of the map on its
own (filter, then delete the key or store the filtered list), so it is given entry by
entry. -/
def cleanupRateLimitData (cfg : Config) (now : Nat) (userRequests : RateStore) : RateStore :=
  let cleanupTime := cfg.rateLimit.timeWindow * 2
  fun userId =>
    match userRequests userId with
    | none => none
    | some requestTimes =>
      let recentRequests := requestTimes.filter (within cleanupTime now)
      if recentRequests.length = 0 then none else some recentRequests

/-! ## handlers/userHandler.js: in-memory verification state -/

/-- The module variables `verifiedUsers`, `verificationAttempts`, `verificationCooldowns`. -/
structure Tracker where
  verifiedUsers : JsSet
  verificationAttempts : JsMap Nat
  verificationCooldowns : JsMap Int

/-- The state when the module is loaded. -/
def Tracker.initial : Tracker where
  verifiedUsers := []
  verificationAttempts := JsMap.empty
  verificationCooldowns := JsMap.empty

/-- The function `addVerifiedUser(userId)`. -/
def addVerifiedUser (t : Tracker) (userId : UserId) : Tracker where
  verifiedUsers := t.verifiedUsers.add userId
  verificationAttempts := t.verificationAttempts.delete userId
  verificationCooldowns := t.verificationCooldowns.delete userId

/-- The function `isUserVerified(userId)`. -/
def isUserVerified (t : Tracker) (userId : UserId) : Bool :=
  t.verifiedUsers.has userId

/-- The function `setUserCooldown(userId)`. -/
def setUserCooldown (cfg : Config) (now : Nat) (t : Tracker) (userId : UserId) : Tracker :=
  { t with verificationCooldowns :=
      t.verificationCooldowns.set userId ((now : Int) + cfg.verification.cooldownTime) }

/-- The expression `verificationAttempts.get(userId) || 0`. -/
def failedAttempts (t : Tracker) (userId : UserId) : Nat :=
  (t.verificationAttempts userId).getD 0

/-- The function `incrementVerificationAttempts(userId)`. -/
def incrementVerificationAttempts (cfg : Config) (now : Nat) (t : Tracker) (userId : UserId) :
    Tracker :=
  let attempts := failedAttempts t userId
  let t1 := { t with verificationAttempts := t.verificationAttempts.set userId (attempts + 1) }
  if attempts + 1 ≥ cfg.verification.maxAttempts then setUserCooldown cfg now t1 userId else t1

/-- The function `isUserInCooldown(userId)`, as the truthiness of the value of
`cooldownEnd && Date.now() < cooldownEnd` (`undefined` and `0` are falsy). -/
def isUserInCooldown (now : Nat) (t : Tracker) (userId : UserId) : Bool :=
  match t.verificationCooldowns userId with
  | none => false
  | some cooldownEnd => decide (cooldownEnd ≠ 0) && decide ((now : Int) < cooldownEnd)

/-- The function `getCooldownTime(userId)`: `cooldownEnd ? cooldownEnd - Date.now() : 0`. -/
def getCooldownTime (now : Nat) (t : Tracker) (userId : UserId) : Int :=
  match t.verificationCooldowns userId with
  | none => 0
  | some cooldownEnd => if cooldownEnd ≠ 0 then cooldownEnd - (now : Int) else 0

/-! ## The world the asynchronous functions act on -/

/-- Texts sent to the user.  Only the kind of the message and the data interpolated into
it are kept. -/
inductive Message
  /-- The text `Please join all required channels first to use this bot. ...`. -/
  | joinRequiredChannels
  /-- The text `Please wait a moment before sending another request.`. -/
  | waitBeforeNextRequest
  /-- The text `Please send a valid Terabox link.`. -/
  | sendValidLink
  /-- The text `Processing your Terabox link...`. -/
  | processing
  /-- The text `Failed to process link: <link> Error: <error>`. -/
  | failedToProcess (link : String) (error : String)
  /-- The text `File is too large (<size>). Maximum allowed size is 2GB.`. -/
  | fileTooLarge (size : Nat)
  /-- The text `Download failed: <error>`. -/
  | downloadFailed (error : String)
  /-- The text `All files processed successfully!`. -/
  | allProcessed
  /-- The text `Error processing your link. Please try again later.`. -/
  | errorProcessing
  /-- The text `File not found. Please try again.`. -/
  | fileNotFound
  /-- The text `Error sending file. Please try again later.`. -/
  | errorSending
  /-- The text `Please wait <minutes> minutes before trying to verify again.`. -/
  | waitBeforeVerify (minutes : Int)
  /-- The text `Please wait <minutes> minutes before trying again.`. -/
  | waitBeforeRetry (minutes : Int)
  /-- The text `Verifying your channel memberships...`. -/
  | verifying
  /-- The per-channel verification results with the closing line. -/
  | verificationResults (results : List (ChannelId × Bool)) (allRequiredJoined : Bool)
  /-- The text `Error verifying your memberships. Please try again later.`. -/
  | errorVerifying
  /-- The text `Verifying your memberships...`. -/
  | verifyingMemberships
  /-- The text `All required channels verified! You can now use the bot ...`. -/
  | allVerified
  /-- The text `Not all required channels verified. Please join all channels and try again.`. -/
  | notAllVerified
  /-- The text `Please join all channels below to use the bot:` with the join buttons. -/
  | joinButtons
  deriving DecidableEq, Repr

/-- A call on the messaging transport (`ctx` or `ctx.telegram`). -/
inductive TransportCall
  | reply (message : Message)
  | replyWithDocument (source : String)
  | replyWithVideo (source : String)
  | replyWithPhoto (source : String)
  | editMessageText (message : Message)
  | answerCbQuery (message : Message)
  deriving DecidableEq, Repr

/-- What the functions do to their collaborators, in order. -/
inductive Event
  /-- A call `bot.telegram.getChatMember(channelId, userId)`. -/
  | getChatMember (channelId : ChannelId) (userId : UserId)
  /-- A call on the messaging transport, whether it resolved or threw. -/
  | transport (call : TransportCall)
  /-- A call `teraboxService.getFileInfo(link)`. -/
  | getFileInfo (link : String)
  /-- A call `teraboxService.downloadFile(link, fileInfo)`. -/
  | downloadFile (link : String)
  /-- A call `fs.writeFileSync(path, ...)` that created the file. -/
  | created (path : String)
  /-- A call `fs.unlinkSync(path)` that removed the file. -/
  | unlinked (path : String)
  deriving DecidableEq, Repr

/-- Errors thrown by the embedded code. -/
inductive JsError
  /-- Reading an identifier that is not bound in the scope. -/
  | referenceError (identifier : String)
  /-- A rejected call on the messaging transport. -/
  | transportError
  /-- A failed file-system call on `path`. -/
  | fsError (path : String)
  deriving DecidableEq, Repr

/-- The file system: the size of the file at a path, `none` if nothing exists there. -/
abbrev FileSystem := String → Option Nat

/-- The file system after the file at `path` is removed. -/
def FileSystem.remove (fs : FileSystem) (path : String) : FileSystem :=
  fun p => if p = path then none else fs p

/-- The file system after a file of `size` bytes is written at `path`. -/
def FileSystem.write (fs : FileSystem) (path : String) (size : Nat) : FileSystem :=
  fun p => if p = path then some size else fs p

/-- All mutable state: the module variables of `userHandler.js` and `rateLimiter.js`, the
file system, and the trace of collaborator calls made so far. -/
structure World where
  tracker : Tracker
  userRequests : RateStore
  fs : FileSystem
  trace : List Event

/-- How a result of `teraboxService.getFileInfo` looks to its caller. -/
structure FileInfo where
  type : String
  name : String
  size : Nat
  fileType : Option String
  deriving DecidableEq, Repr

/-- The three shapes of value `handleTeraboxLink` distinguishes in the result of
`getFileInfo`: a file description, an object with a truthy `error`, or a falsy value. -/
inductive FileInfoResult
  | info (fileInfo : FileInfo)
  | error (message : String)
  | nothing
  deriving DecidableEq, Repr

/-- The behaviour of everything outside the embedded code.  A behaviour that can differ
from call to call is indexed by the number of events recorded when the call is made. -/
structure Collaborators where
  /-- The status `getChatMember` reports for a user in a channel; `none` when the call fails. -/
  getChatMember : ChannelId → UserId → Option String
  /-- Whether the transport call made as event number `n` throws. -/
  transportFails : Nat → Bool
  /-- What `teraboxService.getFileInfo` returns when called as event number `n`. -/
  fileInfoResult : Nat → String → FileInfoResult
  /-- Whether the file-system work of `downloadFile` started as event number `n` throws. -/
  downloadFails : Nat → Bool
  /-- The name `terabox_<Date.now()>_<random>` generated by `downloadFile` at event `n`. -/
  tempName : Nat → String

/-- An asynchronous function: from a world to a result or a thrown error, and the world
reached. -/
def Act (α : Type) : Type := World → Except JsError α × World

/-- Return a value. -/
def Act.pure {α : Type} (a : α) : Act α := fun w => (.ok a, w)

/-- Sequence: a thrown error skips the rest. -/
def Act.bind {α β : Type} (x : Act α) (f : α → Act β) : Act β := fun w =>
  match x w with
  | (.ok a, w1) => f a w1
  | (.error e, w1) => (.error e, w1)

instance : Monad Act where
  pure := Act.pure
  bind := Act.bind

/-- The statement `throw e`. -/
def Act.throw {α : Type} (e : JsError) : Act α := fun w => (.error e, w)

/-- The statement `try { body } catch (error) { handler }`. -/
def Act.tryCatch {α : Type} (body : Act α) (handler : JsError → Act α) : Act α := fun w =>
  match body w with
  | (.ok a, w1) => (.ok a, w1)
  | (.error e, w1) => handler e w1

/-- Read the current world. -/
def Act.world : Act World := fun w => (.ok w, w)

/-- Record an event. -/
def Act.emit (e : Event) : Act Unit := fun w => (.ok (), { w with trace := w.trace ++ [e] })

/-- Run a function of `userHandler.js` that mutates the module state. -/
def Act.modifyTracker (f : Tracker → Tracker) : Act Unit := fun w =>
  (.ok (), { w with tracker := f w.tracker })

/-- Run a function of `rateLimiter.js` that mutates the module state. -/
def Act.modifyUserRequests (f : RateStore → RateStore) : Act Unit := fun w =>
  (.ok (), { w with userRequests := f w.userRequests })

/-- A call on the messaging transport: recorded, then resolved or thrown as the
collaborator decides. -/
def Act.transport (env : Collaborators) (call : TransportCall) : Act Unit := fun w =>
  let w1 := { w with trace := w.trace ++ [Event.transport call] }
  if env.transportFails w.trace.length then (.error .transportError, w1) else (.ok (), w1)

/-- The call `fs.statSync(path).size`: throws if nothing exists at `path`. -/
def Act.statSyncSize (path : String) : Act Nat := fun w =>
  match w.fs path with
  | some size => (.ok size, w)
  | none => (.error (.fsError path), w)

/-- The call `fs.existsSync(path)`. -/
def Act.existsSync (path : String) : Act Bool := fun w => (.ok (w.fs path).isSome, w)

/-- The call `fs.unlinkSync(path)`: removes an existing file, throws otherwise. -/
def Act.unlinkSync (path : String) : Act Unit := fun w =>
  match w.fs path with
  | some _ =>
    (.ok (), { w with fs := w.fs.remove path, trace := w.trace ++ [Event.unlinked path] })
  | none => (.error (.fsError path), w)

/-- The call `fs.writeFileSync(path, content)` for a content of `size` bytes. -/
def Act.writeFileSync (path : String) (size : Nat) : Act Unit := fun w =>
  (.ok (), { w with fs := w.fs.write path size, trace := w.trace ++ [Event.created path] })

/-! ## handlers/userHandler.js: membership queries -/

/-- A JavaScript object with boolean values, as its list of own properties. -/
abbrev JsObject := List (String × Bool)

/-- The assignment `obj[key] = value`. -/
def JsObject.set : JsObject → String → Bool → JsObject
  | [], key, value => [(key, value)]
  | (k, v) :: rest, key, value =>
    if k = key then (k, value) :: rest else (k, v) :: JsObject.set rest key value

/-- The truthiness of `obj[key]`: an absent property reads `undefined`. -/
def JsObject.get : JsObject → String → Bool
  | [], _ => false
  | (k, v) :: rest, key => if k = key then v else JsObject.get rest key

/-- The test `['member', 'administrator', 'creator'].includes(status)`. -/
def isMemberStatus (status : String) : Bool :=
  ["member", "administrator", "creator"].contains status

/-- The function `checkChannelMembership(userId, channelId)`: a failed query is caught and
answered `false`. -/
def checkChannelMembership (env : Collaborators) (userId : UserId) (channelId : ChannelId) :
    Act Bool := do
  Act.emit (.getChatMember channelId userId)
  match env.getChatMember channelId userId with
  | some status => pure (isMemberStatus status)
  | none => pure false

/-- The loop of `verifyUserMembership` over the channels still to be checked. -/
def verifyUserMembershipLoop (env : Collaborators) (userId : UserId) :
    List Channel → JsObject → Act JsObject
  | [], results => pure results
  | channel :: rest, results => do
    let joined ← checkChannelMembership env userId channel.id
    verifyUserMembershipLoop env userId rest (results.set channel.id joined)

/-- The function `verifyUserMembership(userId)`. -/
def verifyUserMembership (cfg : Config) (env : Collaborators) (userId : UserId) :
    Act JsObject :=
  verifyUserMembershipLoop env userId cfg.privateChannels []

/-- The object returned by `getUserMembershipStatus`: the properties of `status` and the
property `allRequiredJoined`. -/
structure MembershipStatus where
  status : JsObject
  allRequiredJoined : Bool
  deriving DecidableEq, Repr

/-- The expression
`config.privateChannels.filter(channel => channel.required).every(channel => status[channel.id])`. -/
def allRequiredJoinedOf (cfg : Config) (status : JsObject) : Bool :=
  (cfg.privateChannels.filter (fun channel => channel.required)).all
    (fun channel => status.get channel.id)

/-- The function `getUserMembershipStatus(userId)`. -/
def getUserMembershipStatus (cfg : Config) (env : Collaborators) (userId : UserId) :
    Act MembershipStatus := do
  let status ← verifyUserMembership cfg env userId
  pure { status := status, allRequiredJoined := allRequiredJoinedOf cfg status }

/-! ## middlewares/authMiddleware.js -/

/-- The function `checkAuth(ctx)` for `ctx.from.id = userId`; the result is the field
`success` (the message of a failure is always the same text). -/
def checkAuth (cfg : Config) (env : Collaborators) (userId : UserId) : Act Bool := do
  let w ← Act.world
  if isUserVerified w.tracker userId then
    pure true
  else do
    let status ← getUserMembershipStatus cfg env userId
    if status.allRequiredJoined then do
      Act.modifyTracker (fun t => addVerifiedUser t userId)
      pure true
    else
      pure false

/-! ## JavaScript string methods used by the services -/

/-- The call `s.endsWith(suffix)`. -/
def endsWith (s suffix : String) : Bool :=
  suffix.toList.isSuffixOf s.toList

/-- Whether the characters `sub` occur consecutively in a list of characters. -/
def includesChars (sub : List Char) : List Char → Bool
  | [] => sub.isEmpty
  | c :: cs => sub.isPrefixOf (c :: cs) || includesChars sub cs

/-- The call `s.includes(sub)`. -/
def includes (s sub : String) : Bool :=
  includesChars sub.toList s.toList

/-- The characters after the last `/`, scanning from the left with the segment read so
far in `acc`. -/
def lastSegmentChars : List Char → List Char → List Char
  | [], acc => acc
  | c :: cs, acc => if c = '/' then lastSegmentChars cs [] else lastSegmentChars cs (acc ++ [c])

/-- The expression `s.split('/').pop()`. -/
def lastSegment (s : String) : String :=
  String.mk (lastSegmentChars s.toList [])

/-! ## services/teraboxService.js -/

/-- The function `getFileInfo(teraboxLink)` as written: mock data chosen from the text of
the link.  (The fields `fileCount` and `files` of a folder are read by no caller and are
left out.) -/
def getFileInfo (teraboxLink : String) : FileInfoResult :=
  let isFolder := includes teraboxLink "/s/"
  if isFolder then
    .info { type := "folder", name := "Terabox Folder", size := 150 * 1024 * 1024,
            fileType := none }
  else
    let fileName := if lastSegment teraboxLink = "" then "terabox_file" else lastSegment teraboxLink
    if includes fileName ".mp4" || includes fileName ".mkv" then
      .info { type := "file", name := fileName, size := 100 * 1024 * 1024,
              fileType := some "video" }
    else if includes fileName ".jpg" || includes fileName ".png" then
      .info { type := "file", name := fileName, size := 5 * 1024 * 1024,
              fileType := some "image" }
    else if includes fileName ".pdf" || includes fileName ".doc" then
      .info { type := "file", name := fileName, size := 10 * 1024 * 1024,
              fileType := some "document" }
    else
      .info { type := "file", name := fileName, size := 50 * 1024 * 1024,
              fileType := some "document" }

/-- A call of `teraboxService.getFileInfo`, answered by the collaborator. -/
def Act.getFileInfo (env : Collaborators) (link : String) : Act FileInfoResult := fun w =>
  (.ok (env.fileInfoResult w.trace.length link),
   { w with trace := w.trace ++ [Event.getFileInfo link] })

/-- The object returned by `downloadFile`. -/
inductive DownloadResult
  | success (filePath : String) (isZip : Bool)
  | failure (error : String)
  deriving DecidableEq, Repr

/-- The function `downloadFile(teraboxLink, fileInfo)`.  Its body is one `try` block: a
file-system call that throws is caught and answered with `success: false`; otherwise a
file with the simulated content (24 bytes for a folder, 22 for a file) is written under
the temp directory. -/
def downloadFile (cfg : Config) (env : Collaborators) (teraboxLink : String)
    (fileInfo : FileInfo) : Act DownloadResult := do
  let w ← Act.world
  Act.emit (.downloadFile teraboxLink)
  if env.downloadFails w.trace.length then
    pure (.failure "Download failed")
  else
    let tempFilePath := cfg.storage.tempDir ++ "/" ++ env.tempName w.trace.length
    if fileInfo.type == "folder" then do
      let zipFilePath := tempFilePath ++ ".zip"
      Act.writeFileSync zipFilePath 24
      pure (.success zipFilePath true)
    else do
      let extension :=
        if fileInfo.fileType == some "video" then ".mp4"
        else if fileInfo.fileType == some "image" then ".jpg"
        else if fileInfo.fileType == some "document" then ".pdf"
        else ".bin"
      let finalFilePath := tempFilePath ++ extension
      Act.writeFileSync finalFilePath 22
      pure (.success finalFilePath false)

/-! ## services/telegramService.js -/

/-- The delivery call `sendFileToUser` chooses for a file of `fileSize` bytes at
`filePath` (lines 31 to 60). -/
def deliveryCall (cfg : Config) (filePath : String) (fileInfo : FileInfo) (fileSize : Nat) :
    TransportCall :=
  if fileInfo.type == "folder" || endsWith filePath ".zip" then
    .replyWithDocument filePath
  else if fileInfo.fileType == some "video" then
    if fileSize ≤ cfg.telegram.maxVideoSize then .replyWithVideo filePath
    else .replyWithDocument filePath
  else if fileInfo.fileType == some "image" then
    if fileSize ≤ cfg.telegram.maxPhotoSize then .replyWithPhoto filePath
    else .replyWithDocument filePath
  else
    .replyWithDocument filePath

/-- The function `sendFileToUser(ctx, filePath, fileInfo)`. -/
def sendFileToUser (cfg : Config) (env : Collaborators) (filePath : String)
    (fileInfo : FileInfo) : Act Unit :=
  Act.tryCatch
    (do
      let fileSize ← Act.statSyncSize filePath
      let fileExists ← Act.existsSync filePath
      if !fileExists then
        Act.transport env (.reply .fileNotFound)
      else if fileSize > cfg.telegram.maxFileSize then do
        Act.transport env (.reply (.fileTooLarge fileSize))
        Act.unlinkSync filePath
      else do
        Act.transport env (deliveryCall cfg filePath fileInfo fileSize)
        Act.unlinkSync filePath)
    (fun _ => do
      let fileExists ← Act.existsSync filePath
      if fileExists then
        Act.unlinkSync filePath
      Act.transport env (.reply .errorSending))

/-! ## handlers/linkHandler.js -/

/-- Reading `config.telegram.maxFileSize` inside `linkHandler.js`.  `binding` is what the
identifier `config` is bound to in the scope of that module; reading an unbound identifier
throws a `ReferenceError`. -/
def readMaxFileSize (binding : Option Config) : Act Nat :=
  match binding with
  | some c => pure c.telegram.maxFileSize
  | none => Act.throw (.referenceError "config")

/-- What `config` is bound to in `handlers/linkHandler.js` as written: the module requires
`teraboxService`, `telegramService`, `userHandler`, `authMiddleware`, `rateLimiter` and
`logger`, and neither requires `../config/config` nor declares `config`. -/
def linkHandlerConfigBinding : Option Config := none

/-- The body of the loop `for (const link of matches)` in `handleTeraboxLink`. -/
def processLink (binding : Option Config) (cfg : Config) (env : Collaborators)
    (link : String) : Act Unit := do
  let fileInfo ← Act.getFileInfo env link
  match fileInfo with
  | .nothing => Act.transport env (.reply (.failedToProcess link "Unknown error"))
  | .error message => Act.transport env (.reply (.failedToProcess link message))
  | .info info => do
    let maxFileSize ← readMaxFileSize binding
    if info.size > maxFileSize then
      Act.transport env (.reply (.fileTooLarge info.size))
    else do
      let downloadResult ← downloadFile cfg env link info
      match downloadResult with
      | .failure error => Act.transport env (.reply (.downloadFailed error))
      | .success filePath _ => sendFileToUser cfg env filePath info

/-- The loop `for (const link of matches)` in `handleTeraboxLink`. -/
def processLinks (binding : Option Config) (cfg : Config) (env : Collaborators) :
    List String → Act Unit
  | [] => pure ()
  | link :: rest => do
    processLink binding cfg env link
    processLinks binding cfg env rest

/-- The function `handleTeraboxLink(ctx)` for `ctx.from.id = userId`.  `matched` is the
value of `messageText.match(teraboxRegex)`, with `null` given as the empty list;
`nowCheck` and `nowUpdate` are the clock readings of `isRateLimited` and
`updateRateLimit`; `binding` is the binding of `config` in the module
(`linkHandlerConfigBinding` in the file as written) and `cfg` the configuration the other
modules require. -/
def handleTeraboxLink (binding : Option Config) (cfg : Config) (env : Collaborators)
    (nowCheck nowUpdate : Nat) (userId : UserId) (matched : List String) : Act Unit := do
  let authResult ← checkAuth cfg env userId
  if !authResult then
    Act.transport env (.reply .joinRequiredChannels)
  else do
    let w ← Act.world
    if isRateLimited cfg nowCheck w.userRequests userId then
      Act.transport env (.reply .waitBeforeNextRequest)
    else if matched.length = 0 then
      Act.transport env (.reply .sendValidLink)
    else do
      Act.modifyUserRequests (fun r => updateRateLimit cfg nowUpdate r userId)
      Act.transport env (.reply .processing)
      Act.tryCatch
        (do
          processLinks binding cfg env matched
          Act.transport env (.editMessageText .allProcessed))
        (fun _ => Act.transport env (.editMessageText .errorProcessing))

/-! ## handlers/commandHandlers.js -/

/-- The expression `Math.ceil(a / b)` for integers `a` and `b > 0`. -/
def ceilDiv (a b : Int) : Int :=
  -((-a) / b)

/-- The function `sendChannelJoinButtons(ctx, userId)`: one reply carrying the buttons. -/
def sendChannelJoinButtons (env : Collaborators) : Act Unit :=
  Act.transport env (.reply .joinButtons)

/-- The `forEach` loop of the `verify` command that computes `allRequiredJoined`. -/
def allRequiredJoinedLoop (cfg : Config) (verificationResult : JsObject) : Bool :=
  cfg.privateChannels.foldl
    (fun allRequiredJoined channel =>
      if channel.required && !verificationResult.get channel.id then false
      else allRequiredJoined)
    true

/-- The handler of `bot.command('verify', ...)` for `ctx.from.id = userId`. `nowCheck` is
the clock reading of `isUserInCooldown`, `nowRead` that of `getCooldownTime`, `nowAttempt`
that of `setUserCooldown`. -/
def verifyCommand (cfg : Config) (env : Collaborators) (nowCheck nowRead nowAttempt : Nat)
    (userId : UserId) : Act Unit := do
  let w ← Act.world
  if isUserInCooldown nowCheck w.tracker userId then
    let cooldownTime := getCooldownTime nowRead w.tracker userId
    Act.transport env (.reply (.waitBeforeVerify (ceilDiv cooldownTime 60000)))
  else do
    Act.transport env (.reply .verifying)
    Act.tryCatch
      (do
        let verificationResult ← verifyUserMembership cfg env userId
        let allRequiredJoined := allRequiredJoinedLoop cfg verificationResult
        Act.transport env
          (.editMessageText (.verificationResults verificationResult allRequiredJoined))
        if allRequiredJoined then
          Act.modifyTracker (fun t => addVerifiedUser t userId)
        else do
          Act.modifyTracker (fun t => incrementVerificationAttempts cfg nowAttempt t userId)
          sendChannelJoinButtons env)
      (fun _ => Act.transport env (.editMessageText .errorVerifying))

/-- The handler of `bot.action('check_membership', ...)` for `ctx.from.id = userId`, with
the same three clock readings as `verifyCommand`. -/
def checkMembershipAction (cfg : Config) (env : Collaborators)
    (nowCheck nowRead nowAttempt : Nat) (userId : UserId) : Act Unit := do
  let w ← Act.world
  if isUserInCooldown nowCheck w.tracker userId then
    let cooldownTime := getCooldownTime nowRead w.tracker userId
    Act.transport env (.answerCbQuery (.waitBeforeRetry (ceilDiv cooldownTime 60000)))
  else do
    Act.transport env (.answerCbQuery .verifyingMemberships)
    let verificationResult ← verifyUserMembership cfg env userId
    let allRequiredJoined := allRequiredJoinedOf cfg verificationResult
    if allRequiredJoined then do
      Act.transport env (.editMessageText .allVerified)
      Act.modifyTracker (fun t => addVerifiedUser t userId)
    else do
      Act.modifyTracker (fun t => incrementVerificationAttempts cfg nowAttempt t userId)
      Act.transport env (.editMessageText .notAllVerified)
      sendChannelJoinButtons env

/-! ## utils/helpers.js and the periodic cleanup of app.js -/

/-- What the file system records of an entry: whether it is a directory, and the time of
its last modification (milliseconds, as `Date.now()`). -/
structure FsEntry where
  isDirectory : Bool
  mtimeMs : Nat
  deriving DecidableEq, Repr

/-- A file system with directories: the entry at a path, `none` if nothing exists there. -/
abbrev AgedFileSystem := String → Option FsEntry

/-- Whether `path` lies inside the directory `dir`: it begins with `dir` followed by `/`. -/
def isUnder (dir path : String) : Bool :=
  (dir.toList ++ ['/']).isPrefixOf path.toList

/-- The call `fs.rmSync(path, { recursive: true, force: true })`: the entry at `path` and
everything inside it are removed. -/
def rmSyncRecursive (fs : AgedFileSystem) (path : String) : AgedFileSystem :=
  fun p => if p = path ∨ isUnder path p = true then none else fs p

/-- The function `cleanupTempFiles(filePath)`: nothing if the path does not exist, a
recursive removal if it is a directory, `unlinkSync` if it is a file.  (An error of the
file system is caught and logged; the model has none.) -/
def cleanupTempFiles (filePath : String) (fs : AgedFileSystem) : AgedFileSystem :=
  match fs filePath with
  | none => fs
  | some entry =>
    if entry.isDirectory then rmSyncRecursive fs filePath
    else fun p => if p = filePath then none else fs p

/-- The callback of the first `setInterval` in `app.js`, run every
`config.storage.cleanupInterval` milliseconds:
`helpers.cleanupTempFiles(config.storage.tempDir)`. -/
def periodicTempCleanup (cfg : Config) (fs : AgedFileSystem) : AgedFileSystem :=
  cleanupTempFiles cfg.storage.tempDir fs

/-- The age of an entry at time `now`. -/
def FsEntry.age (now : Nat) (entry : FsEntry) : Nat :=
  now - entry.mtimeMs

/-! ## services/teraboxService.js: calls of downloadFile in flight -/

/-- The calls of `downloadFile` made by concurrently handled requests, by job: the jobs
that have not called it yet, and the jobs whose call is in flight, that is, suspended at
`await new Promise(resolve => setTimeout(resolve, downloadTime))`, the only suspension
point of the function. -/
structure Downloads where
  waiting : List Nat
  inFlight : List Nat
  deriving DecidableEq, Repr

/-- A step of the event loop as far as `downloadFile` is concerned. -/
inductive DownloadStep
  /-- Job `job` calls `downloadFile` and runs to the suspension point. -/
  | enter (job : Nat)
  /-- The timer of job `job` fires: the call writes its file and returns. -/
  | resume (job : Nat)
  deriving DecidableEq, Repr

/-- Effect of a step.  The statements of `downloadFile` before its suspension point
(the temp directory, the temp path, `logger.info`, the delay) neither wait nor count
calls nor read `config.terabox.concurrentDownloads`, so a job that has not called yet
can always enter. -/
def DownloadStep.apply (d : Downloads) : DownloadStep → Downloads
  | .enter job =>
    if job ∈ d.waiting then { waiting := d.waiting.erase job, inFlight := d.inFlight ++ [job] }
    else d
  | .resume job =>
    if job ∈ d.inFlight then { waiting := d.waiting, inFlight := d.inFlight.erase job }
    else d

/-- The jobs `jobs` launched, none of them in `downloadFile` yet. -/
def Downloads.launched (jobs : List Nat) : Downloads where
  waiting := jobs
  inFlight := []

/-- Effect of a sequence of steps. -/
def Downloads.run (d : Downloads) (steps : List DownloadStep) : Downloads :=
  steps.foldl DownloadStep.apply d

/-! ## app.js: the background verification check -/

/-- The loop `for (const userId of verifiedUsers)` of the background verification check,
over the snapshot `Array.from(userHandler.getVerifiedUsers())`. -/
def backgroundVerificationLoop (cfg : Config) (env : Collaborators) : List UserId → Act Unit
  | [] => pure ()
  | userId :: rest => do
    let status ← getUserMembershipStatus cfg env userId
    if !status.allRequiredJoined then
      Act.modifyTracker (fun t => { t with verifiedUsers := t.verifiedUsers.delete userId })
    backgroundVerificationLoop cfg env rest

/-- One pass of the background verification check (the callback of the second
`setInterval` in `app.js`): the loop inside `try`, with a `catch` that only logs. -/
def backgroundVerificationCheck (cfg : Config) (env : Collaborators) : Act Unit :=
  Act.tryCatch
    (do
      let w ← Act.world
      backgroundVerificationLoop cfg env w.tracker.verifiedUsers)
    (fun _ => pure ())

/-! ## What the membership collaborator says -/

/-- Whether the collaborator reports the user as joined to a channel: it returned one of
the statuses `member`, `administrator`, `creator`.  A failed query counts as not joined. -/
def reportsJoined (env : Collaborators) (userId : UserId) (channelId : ChannelId) : Bool :=
  match env.getChatMember channelId userId with
  | some status => isMemberStatus status
  | none => false

/-- The world after further events. -/
def World.after (w : World) (events : List Event) : World :=
  { w with trace := w.trace ++ events }

/-- Whether the collaborator reports the user as joined to every required channel. -/
def membershipSatisfied (cfg : Config) (env : Collaborators) (userId : UserId) : Bool :=
  (cfg.privateChannels.filter (fun channel => channel.required)).all
    (fun channel => reportsJoined env userId channel.id)

/-- The events of one membership query over all configured channels. -/
def membershipQueries (cfg : Config) (userId : UserId) : List Event :=
  cfg.privateChannels.map (fun ch => Event.getChatMember ch.id userId)

/-- The events `checkAuth` causes: none for a verified user, the membership queries
otherwise. -/
def authQueries (cfg : Config) (t : Tracker) (userId : UserId) : List Event :=
  if isUserVerified t userId then [] else membershipQueries cfg userId

/-- The state of `userHandler.js` after `checkAuth` succeeded. -/
def trackerAfterAuth (t : Tracker) (userId : UserId) : Tracker :=
  if isUserVerified t userId then t else addVerifiedUser t userId

/-- The world after `checkAuth` succeeded in world `w`. -/
def World.afterAuth (cfg : Config) (w : World) (userId : UserId) : World :=
  { w with tracker := trackerAfterAuth w.tracker userId,
           trace := w.trace ++ authQueries cfg w.tracker userId }

/-- The world after `checkAuth` and `updateRateLimit`. -/
def World.afterAdmission (cfg : Config) (w : World) (nowUpdate : Nat) (userId : UserId) :
    World :=
  { World.afterAuth cfg w userId with
    userRequests := updateRateLimit cfg nowUpdate w.userRequests userId }

/-- The world `handleTeraboxLink` leaves, whether it returned or threw. -/
def afterLinkHandler (binding : Option Config) (cfg : Config) (env : Collaborators)
    (nowCheck nowUpdate : Nat) (userId : UserId) (matched : List String) (w : World) : World :=
  (handleTeraboxLink binding cfg env nowCheck nowUpdate userId matched w).2

/-- The membership queries of one pass of the background check over the users `users`. -/
def sweepQueries (cfg : Config) : List UserId → List Event
  | [] => []
  | userId :: rest => membershipQueries cfg userId ++ sweepQueries cfg rest

/-! ## Reading the trace -/

/-- Whether an event is a delivery of a file (`replyWithDocument`, `replyWithVideo` or
`replyWithPhoto`). -/
def Event.isDelivery : Event → Bool
  | .transport (.replyWithDocument _) => true
  | .transport (.replyWithVideo _) => true
  | .transport (.replyWithPhoto _) => true
  | _ => false

/-- Whether an event is the reply that rejects a file as too large. -/
def Event.isTooLarge : Event → Bool
  | .transport (.reply (.fileTooLarge _)) => true
  | _ => false

/-- The first transport call of `sendFileToUser` for an existing file of `fileSize` bytes:
the rejection above `maxFileSize`, the delivery otherwise. -/
def firstCall (cfg : Config) (filePath : String) (fileInfo : FileInfo) (fileSize : Nat) :
    TransportCall :=
  if fileSize > cfg.telegram.maxFileSize then .reply (.fileTooLarge fileSize)
  else deliveryCall cfg filePath fileInfo fileSize

/-! ## Sample collaborators and worlds -/

/-- A membership collaborator: user 7 is a member of the first channel, administrator of
the second, creator of the third and fourth, has left the optional group; user 8 is a
member of the first channel, was kicked from the second, and the query for the third
fails; every other query fails. -/
def sampleGetChatMember (channelId : ChannelId) (userId : UserId) : Option String :=
  if userId = 7 then
    if channelId = "-1001" then some "member"
    else if channelId = "-1002" then some "administrator"
    else if channelId = "-1003" then some "creator"
    else if channelId = "-1004" then some "creator"
    else if channelId = "-2001" then some "left"
    else none
  else if userId = 8 then
    if channelId = "-1001" then some "member"
    else if channelId = "-1002" then some "kicked"
    else none
  else none

/-- Collaborators that never throw: `sampleGetChatMember`, a transport that always
resolves, the file information of `getFileInfo` as written, downloads that succeed. -/
def sampleCollaborators : Collaborators where
  getChatMember := sampleGetChatMember
  transportFails := fun _ => false
  fileInfoResult := fun _ link => getFileInfo link
  downloadFails := fun _ => false
  tempName := fun _ => "terabox_1700000000000_ab12cd"

/-- The world right after the modules are loaded: nothing verified, no request recorded,
no file, no event. -/
def World.initial : World where
  tracker := Tracker.initial
  userRequests := JsMap.empty
  fs := fun _ => none
  trace := []

/-- A world in which user 7 is verified and nothing else has happened. -/
def worldWithVerifiedUser : World :=
  { World.initial with tracker := addVerifiedUser Tracker.initial 7 }

/-- Collaborators whose transport throws on the call made as event number 4 and on no
other; everything else as in `sampleCollaborators`. -/
def deliveryFailingCollaborators : Collaborators :=
  { sampleCollaborators with transportFails := fun n => decide (n = 4) }

/-- Collaborators for which the link `https://terabox.com/gone` fails to resolve;
everything else as in `sampleCollaborators`. -/
def secondLinkFailingCollaborators : Collaborators :=
  { sampleCollaborators with
    fileInfoResult := fun _ link =>
      if link = "https://terabox.com/gone" then .error "Failed to get file information"
      else getFileInfo link }

/-- A world whose only file is a 20 MiB image downloaded to the temp directory. -/
def worldWithImage : World :=
  { World.initial with
    fs := World.initial.fs.write "/tmp/terabox_downloads/terabox_1.jpg" (20 * 1024 * 1024) }

/-- The file information of that image. -/
def imageInfo : FileInfo where
  type := "file"
  name := "photo.jpg"
  size := 20 * 1024 * 1024
  fileType := some "image"

/-! ## Runs of the rate limiter -/

/-- The check-then-record step of `handleTeraboxLink` for the rate limiter alone:
`updateRateLimit` runs only if `isRateLimited` answered `false`.  The second component
tells whether the request was admitted. -/
def gatedRequest (cfg : Config) (now : Nat) (userRequests : RateStore) (userId : UserId) :
    RateStore × Bool :=
  if isRateLimited cfg now userRequests userId then (userRequests, false)
  else (updateRateLimit cfg now userRequests userId, true)

/-- Gated requests of one user at the given times, in order: the final store and, per
request, whether it was admitted. -/
def gatedRequests (cfg : Config) (userId : UserId) : List Nat → RateStore → RateStore × List Bool
  | [], userRequests => (userRequests, [])
  | now :: later, userRequests =>
    let first := gatedRequest cfg now userRequests userId
    let others := gatedRequests cfg userId later first.1
    (others.1, first.2 :: others.2)

/-- One step of a run of the rate limiter. -/
inductive LimiterStep
  /-- A gated request of `userId` at time `now`. -/
  | request (userId : UserId) (now : Nat)
  /-- A run of `cleanupRateLimitData` at time `now`. -/
  | cleanup (now : Nat)
  deriving DecidableEq, Repr

/-- The clock reading of a step. -/
def LimiterStep.time : LimiterStep → Nat
  | .request _ now => now
  | .cleanup now => now

/-- The store together with the log of admitted requests (user and timestamp), oldest
first.  The log is not part of the program; it records what the property is about. -/
structure LimiterRun where
  userRequests : RateStore
  admitted : List (UserId × Nat)

/-- The state when `rateLimiter.js` is loaded. -/
def LimiterRun.initial : LimiterRun where
  userRequests := JsMap.empty
  admitted := []

/-- Effect of one step. -/
def LimiterRun.step (cfg : Config) (s : LimiterRun) : LimiterStep → LimiterRun
  | .request userId now =>
    let r := gatedRequest cfg now s.userRequests userId
    { userRequests := r.1,
      admitted := if r.2 then s.admitted ++ [(userId, now)] else s.admitted }
  | .cleanup now =>
    { userRequests := cleanupRateLimitData cfg now s.userRequests, admitted := s.admitted }

/-- Effect of a sequence of steps. -/
def LimiterRun.run (cfg : Config) (s : LimiterRun) (steps : List LimiterStep) : LimiterRun :=
  steps.foldl (LimiterRun.step cfg) s

/-- The timestamps of the admitted requests of one user, oldest first. -/
def LimiterRun.admittedOf (s : LimiterRun) (userId : UserId) : List Nat :=
  (s.admitted.filter (fun e => decide (e.1 = userId))).map (fun e => e.2)

/-- Whether timestamp `t` lies in the half-open interval `(T - window, T]`. -/
def inInterval (window : Int) (T : Int) (t : Nat) : Bool :=
  decide (T - window < (t : Int)) && decide ((t : Int) ≤ T)

/-- Failed verifications of one user at the given times, in order. -/
def failedVerifications (cfg : Config) (userId : UserId) (times : List Nat) (t : Tracker) :
    Tracker :=
  times.foldl (fun s now => incrementVerificationAttempts cfg now s userId) t

/-- What ties the store to the log of admitted requests once the clock has reached `c`:
no admitted request is later than `c`; if the window is positive, the stored and the
admitted timestamps of a user agree inside the window ending at `c`; and every interval
`(T - timeWindow, T]` holds at most `maxRequests` admitted requests of a user. -/
structure LimiterInv (cfg : Config) (s : LimiterRun) (c : Nat) : Prop where
  past : ∀ u, ∀ t ∈ s.admittedOf u, t ≤ c
  agree : 0 < cfg.rateLimit.timeWindow → ∀ u,
    ((s.userRequests u).getD []).filter (within cfg.rateLimit.timeWindow c)
      = (s.admittedOf u).filter (within cfg.rateLimit.timeWindow c)
  bound : ∀ u (T : Int),
    (s.admittedOf u).countP (inInterval cfg.rateLimit.timeWindow T) ≤ cfg.rateLimit.maxRequests

/-- How the processing of links may change the world from `w` to `w1` while recording the
events `ev`: the trace grows by `ev`; the verification state and the rate-limit store
are not touched; every path has as many creations as removals in `ev`; a path created
in `ev` holds no file at the end; and a path not created in `ev` holds what it held. -/
structure Processed (w w1 : World) (ev : List Event) : Prop where
  trace : w1.trace = w.trace ++ ev
  tracker : w1.tracker = w.tracker
  userRequests : w1.userRequests = w.userRequests
  balanced : ∀ q, ev.count (Event.created q) = ev.count (Event.unlinked q)
  removed : ∀ q, Event.created q ∈ ev → w1.fs q = none
  untouched : ∀ q, Event.created q ∉ ev → w1.fs q = w.fs q

/-! ## Histories of the verification state -/

/-- The operations that change the state of `userHandler.js`. -/
inductive TrackerOp
  /-- A call `addVerifiedUser(userId)`. -/
  | addVerifiedUser (userId : UserId)
  /-- A call `incrementVerificationAttempts(userId)` at clock reading `now`. -/
  | incrementVerificationAttempts (userId : UserId) (now : Nat)
  /-- The demotion `getVerifiedUsers().delete(userId)` of the background check. -/
  | demote (userId : UserId)
  deriving DecidableEq, Repr

/-- Effect of one operation. -/
def TrackerOp.apply (cfg : Config) (t : Tracker) : TrackerOp → Tracker
  | .addVerifiedUser userId => TeraboxBot.addVerifiedUser t userId
  | .incrementVerificationAttempts userId now =>
    TeraboxBot.incrementVerificationAttempts cfg now t userId
  | .demote userId => { t with verifiedUsers := t.verifiedUsers.delete userId }

/-- The state reached from the initial one by a sequence of operations. -/
def Tracker.reached (cfg : Config) (ops : List TrackerOp) : Tracker :=
  ops.foldl (TrackerOp.apply cfg) Tracker.initial

/-- Whether an operation read the clock no later than `c`. -/
def TrackerOp.notAfter (c : Nat) : TrackerOp → Prop
  | .incrementVerificationAttempts _ now => now ≤ c
  | _ => True

/-- What holds of the verification record of every user in every reached state: a
recorded count of failed attempts is at least 1, and a recorded cooldown comes with at
least `maxAttempts` failed attempts. -/
structure TrackerInv (cfg : Config) (t : Tracker) : Prop where
  counted : ∀ u n, t.verificationAttempts u = some n → 1 ≤ n
  atMaximum : ∀ u e, t.verificationCooldowns u = some e →
    cfg.verification.maxAttempts ≤ failedAttempts t u

/-- What holds of every recorded cooldown while no operation read the clock after `c`:
it ends `cooldownTime` after a clock reading not later than `c`. -/
def CooldownsSetBy (cfg : Config) (c : Nat) (t : Tracker) : Prop :=
  ∀ u e, t.verificationCooldowns u = some e →
    ∃ t0 : Nat, t0 ≤ c ∧ e = (t0 : Int) + cfg.verification.cooldownTime

/-- A temp directory last modified at time 0 that holds one artifact written at time
3599999; nothing else exists. -/
def sampleTempFs : AgedFileSystem := fun p =>
  if p = "/tmp/terabox_downloads" then some { isDirectory := true, mtimeMs := 0 }
  else if p = "/tmp/terabox_downloads/terabox_1700000000000_ab12cd.zip" then
    some { isDirectory := false, mtimeMs := 3599999 }
  else none

/-- A history in which user 8 failed verification at times 10, 20 and 30. -/
def threeFailures : List TrackerOp :=
  [.incrementVerificationAttempts 8 10, .incrementVerificationAttempts 8 20,
   .incrementVerificationAttempts 8 30]

/-- The world after `threeFailures` at the shipped settings: user 8 is in cooldown until
300030. -/
def worldInCooldown : World :=
  { World.initial with tracker := Tracker.reached (config sampleEnv) threeFailures }

/-! # Theorems -/

/-! ## Rate limiter -/

theorem within_of_le {window : Int} {now now1 time : Nat} (h : now ≤ now1)
    (hw : within window now1 time = true) : within window now time = true := by
  simp only [within, decide_eq_true_eq] at *
  omega

theorem isRateLimited_eq (cfg : Config) (now : Nat) (r : RateStore) (u : UserId) :
    isRateLimited cfg now r u
      = decide (cfg.rateLimit.maxRequests
          ≤ (((r u).getD []).filter (within cfg.rateLimit.timeWindow now)).length) := by
  simp [isRateLimited]

theorem updateRateLimit_self (cfg : Config) (now : Nat) (r : RateStore) (u : UserId) :
    updateRateLimit cfg now r u u
      = some (((r u).getD [] ++ [now]).filter (within cfg.rateLimit.timeWindow now)) := by
  simp [updateRateLimit, JsMap.set]

theorem updateRateLimit_other (cfg : Config) (now : Nat) (r : RateStore) (u v : UserId)
    (h : v ≠ u) : updateRateLimit cfg now r u v = r v := by
  simp [updateRateLimit, JsMap.set, h]

theorem within_self {window : Int} (now : Nat) (h : 0 < window) :
    within window now now = true := by
  simp [within, h]

/-- Requests that are pairwise in order and less than a window apart are all admitted
while fewer than `maxRequests` are stored, and all of them stay stored. -/
theorem gatedRequests_admits (cfg : Config) (u : UserId) (hW : 0 < cfg.rateLimit.timeWindow) :
    ∀ (ts : List Nat) (h : List Nat) (r : RateStore),
      (r u).getD [] = h →
      (h ++ ts).length ≤ cfg.rateLimit.maxRequests →
      List.Pairwise (fun a b : Nat => a ≤ b ∧ (b : Int) - a < cfg.rateLimit.timeWindow)
        (h ++ ts) →
      (gatedRequests cfg u ts r).2 = List.replicate ts.length true
        ∧ ((gatedRequests cfg u ts r).1 u).getD [] = h ++ ts := by
  intro ts
  induction ts with
  | nil => intro h r hr _ _; simp [gatedRequests, hr]
  | cons t ts ih =>
    intro h r hr hlen hpw
    have hall : ∀ a ∈ h, within cfg.rateLimit.timeWindow t a = true := by
      intro a ha
      have := (List.pairwise_append.mp hpw).2.2 a ha t (List.mem_cons_self _ _)
      simp only [within, decide_eq_true_eq]
      exact this.2
    have hfilter : h.filter (within cfg.rateLimit.timeWindow t) = h :=
      List.filter_eq_self.mpr hall
    have hnot : isRateLimited cfg t r u = false := by
      rw [isRateLimited_eq, hr, hfilter]
      simp only [List.length_append, List.length_cons] at hlen
      simp only [decide_eq_false_iff_not, not_le]
      omega
    have hstore : (updateRateLimit cfg t r u u).getD [] = h ++ [t] := by
      rw [updateRateLimit_self, hr, List.filter_append, hfilter]
      simp [within_self t hW]
    have hstep : gatedRequest cfg t r u = (updateRateLimit cfg t r u, true) := by
      simp [gatedRequest, hnot]
    have := ih (h ++ [t]) (updateRateLimit cfg t r u) hstore
      (by simpa using hlen) (by simpa using hpw)
    simp only [gatedRequests, hstep, List.length_cons, List.replicate_succ]
    refine ⟨by rw [this.1], ?_⟩
    rw [this.2]; simp

/-- C2 (rate-limit allow, deny, recover).  A user with an empty history sends
`maxRequests` gated requests at non-decreasing times `t1 ≤ ... ≤ tm`, all before
`t1 + timeWindow` (with `timeWindow > 0`; `maxRequests ≥ 1` as the list `t1 :: rest` has
`maxRequests` elements).  Then every one of them is admitted; afterwards `isRateLimited`
is true at every time from `tm` up to, but excluding, `t1 + timeWindow`; and it is false
at every time from `t1 + timeWindow` on. -/
theorem rate_limit_allow_deny_recover (cfg : Config) (u : UserId) (r : RateStore)
    (t1 : Nat) (rest : List Nat)
    (hempty : (r u).getD [] = [])
    (hW : 0 < cfg.rateLimit.timeWindow)
    (hlen : (t1 :: rest).length = cfg.rateLimit.maxRequests)
    (hsorted : List.Pairwise (fun a b : Nat => a ≤ b) (t1 :: rest))
    (hclose : ∀ t ∈ rest, (t : Int) < (t1 : Int) + cfg.rateLimit.timeWindow) :
    (gatedRequests cfg u (t1 :: rest) r).2 = List.replicate cfg.rateLimit.maxRequests true
      ∧ (∀ t : Nat, (t1 :: rest).getLast (List.cons_ne_nil t1 rest) ≤ t →
          (t : Int) < (t1 : Int) + cfg.rateLimit.timeWindow →
          isRateLimited cfg t (gatedRequests cfg u (t1 :: rest) r).1 u = true)
      ∧ (∀ t : Nat, (t1 : Int) + cfg.rateLimit.timeWindow ≤ (t : Int) →
          isRateLimited cfg t (gatedRequests cfg u (t1 :: rest) r).1 u = false) := by
  have hhead : ∀ b ∈ rest, t1 ≤ b := (List.pairwise_cons.mp hsorted).1
  have hpw : List.Pairwise
      (fun a b : Nat => a ≤ b ∧ (b : Int) - a < cfg.rateLimit.timeWindow) (t1 :: rest) := by
    refine List.pairwise_cons.mpr ⟨?_, ?_⟩
    · intro b hb
      have h1 := hhead b hb
      have h2 := hclose b hb
      exact ⟨h1, by omega⟩
    · refine List.Pairwise.imp_of_mem ?_ (List.pairwise_cons.mp hsorted).2
      intro a b ha hb hab
      have h1 := hhead a ha
      have h2 := hclose b hb
      exact ⟨hab, by omega⟩
  obtain ⟨hadm, hstore⟩ := gatedRequests_admits cfg u hW (t1 :: rest) [] r hempty
    (by simpa using le_of_eq hlen) (by simpa using hpw)
  simp only [List.nil_append] at hstore
  refine ⟨by rw [hadm, hlen], ?_, ?_⟩
  · intro t _ hlt
    rw [isRateLimited_eq, hstore]
    have hall : ∀ a ∈ t1 :: rest, within cfg.rateLimit.timeWindow t a = true := by
      intro a ha
      simp only [within, decide_eq_true_eq]
      rcases List.mem_cons.mp ha with h | h
      · subst h; omega
      · have := hhead a h; omega
    rw [List.filter_eq_self.mpr hall, hlen]
    simp
  · intro t hge
    rw [isRateLimited_eq, hstore]
    have hout : within cfg.rateLimit.timeWindow t t1 = false := by
      simp only [within, decide_eq_false_iff_not, not_lt]
      omega
    rw [List.filter_cons_of_neg (by simp [hout])]
    have hle := List.length_filter_le (within cfg.rateLimit.timeWindow t) rest
    simp only [List.length_cons] at hlen
    simp only [decide_eq_false_iff_not, not_le]
    omega

/-- C2 at the shipped limits (5 requests per 60000 ms): five requests at times
1000, 2000, 2000, 30000 and 60999. -/
theorem rate_limit_allow_deny_recover_witness :
    (gatedRequests (config sampleEnv) 7 (1000 :: [2000, 2000, 30000, 60999]) JsMap.empty).2
        = List.replicate (config sampleEnv).rateLimit.maxRequests true
      ∧ (∀ t : Nat,
          (1000 :: [2000, 2000, 30000, 60999]).getLast (List.cons_ne_nil 1000 _) ≤ t →
          (t : Int) < ((1000 : Nat) : Int) + (config sampleEnv).rateLimit.timeWindow →
          isRateLimited (config sampleEnv) t
            (gatedRequests (config sampleEnv) 7 (1000 :: [2000, 2000, 30000, 60999])
              JsMap.empty).1 7 = true)
      ∧ (∀ t : Nat, ((1000 : Nat) : Int) + (config sampleEnv).rateLimit.timeWindow ≤ (t : Int) →
          isRateLimited (config sampleEnv) t
            (gatedRequests (config sampleEnv) 7 (1000 :: [2000, 2000, 30000, 60999])
              JsMap.empty).1 7 = false) :=
  rate_limit_allow_deny_recover (config sampleEnv) 7 JsMap.empty 1000
    [2000, 2000, 30000, 60999] rfl (by decide) rfl (by decide) (by decide)

/-! ### The sliding-window bound -/

theorem LimiterInv.initial (cfg : Config) : LimiterInv cfg LimiterRun.initial 0 where
  past := by intro u t ht; simp [LimiterRun.admittedOf, LimiterRun.initial] at ht
  agree := by intro _ u; simp [LimiterRun.admittedOf, LimiterRun.initial, JsMap.empty]
  bound := by intro u T; simp [LimiterRun.admittedOf, LimiterRun.initial]

theorem filter_within_of_le {window : Int} {c c1 : Nat} (h : c ≤ c1) (l : List Nat) :
    (l.filter (within window c)).filter (within window c1) = l.filter (within window c1) := by
  rw [List.filter_filter]
  apply List.filter_congr
  intro t _
  cases h1 : within window c1 t
  · simp
  · simp [within_of_le h h1]

/-- The invariant survives the passing of time. -/
theorem LimiterInv.advance {cfg : Config} {s : LimiterRun} {c c1 : Nat}
    (inv : LimiterInv cfg s c) (h : c ≤ c1) : LimiterInv cfg s c1 where
  past := fun u t ht => le_trans (inv.past u t ht) h
  agree := by
    intro hW u
    rw [← filter_within_of_le h, inv.agree hW u, filter_within_of_le h]
  bound := inv.bound

theorem admittedOf_append_self (r : RateStore) (a : List (UserId × Nat)) (u : UserId) (c : Nat) :
    LimiterRun.admittedOf { userRequests := r, admitted := a ++ [(u, c)] } u
      = LimiterRun.admittedOf { userRequests := r, admitted := a } u ++ [c] := by
  simp [LimiterRun.admittedOf, List.filter_append]

theorem admittedOf_append_other (r : RateStore) (a : List (UserId × Nat)) (u v : UserId)
    (c : Nat) (h : v ≠ u) :
    LimiterRun.admittedOf { userRequests := r, admitted := a ++ [(u, c)] } v
      = LimiterRun.admittedOf { userRequests := r, admitted := a } v := by
  simp [LimiterRun.admittedOf, List.filter_append, Ne.symm h]

theorem admittedOf_store (r r1 : RateStore) (a : List (UserId × Nat)) (v : UserId) :
    LimiterRun.admittedOf { userRequests := r, admitted := a } v
      = LimiterRun.admittedOf { userRequests := r1, admitted := a } v := rfl

theorem inInterval_false_of_nonpos {window : Int} (h : window ≤ 0) (T : Int) (t : Nat) :
    inInterval window T t = false := by
  simp only [inInterval, Bool.and_eq_false_imp, decide_eq_true_eq, decide_eq_false_iff_not]
  intro h1
  omega

/-- Admitting a request at the current clock reading keeps the bound. -/
theorem countP_inInterval_admit (cfg : Config) (adm : List Nat) (c : Nat)
    (hpast : ∀ t ∈ adm, t ≤ c)
    (hbound : ∀ T : Int,
      adm.countP (inInterval cfg.rateLimit.timeWindow T) ≤ cfg.rateLimit.maxRequests)
    (hroom : 0 < cfg.rateLimit.timeWindow →
      (adm.filter (within cfg.rateLimit.timeWindow c)).length < cfg.rateLimit.maxRequests)
    (T : Int) :
    (adm ++ [c]).countP (inInterval cfg.rateLimit.timeWindow T) ≤ cfg.rateLimit.maxRequests := by
  by_cases hW : 0 < cfg.rateLimit.timeWindow
  · rw [List.countP_append]
    cases hc : inInterval cfg.rateLimit.timeWindow T c
    · have := hbound T
      simp [List.countP_cons, hc]
      exact this
    · have hlt := hroom hW
      have hmono : adm.countP (inInterval cfg.rateLimit.timeWindow T)
          ≤ adm.countP (within cfg.rateLimit.timeWindow c) := by
        apply List.countP_mono_left
        intro t ht hin
        have := hpast t ht
        simp only [inInterval, Bool.and_eq_true, decide_eq_true_eq] at hin hc
        simp only [within, decide_eq_true_eq]
        omega
      rw [List.countP_eq_length_filter (l := adm) (p := within cfg.rateLimit.timeWindow c)] at hmono
      simp [List.countP_cons, hc]
      omega
  · have hz : (adm ++ [c]).countP (inInterval cfg.rateLimit.timeWindow T) = 0 := by
      rw [List.countP_eq_zero]
      intro t _
      simp [inInterval_false_of_nonpos (not_lt.mp hW) T t]
    omega

/-- A gated request at the current clock reading keeps the invariant. -/
theorem LimiterInv.request {cfg : Config} {s : LimiterRun} {c : Nat}
    (inv : LimiterInv cfg s c) (u : UserId) :
    LimiterInv cfg (s.step cfg (.request u c)) c := by
  cases hlim : isRateLimited cfg c s.userRequests u
  · have hroom : 0 < cfg.rateLimit.timeWindow →
        ((s.admittedOf u).filter (within cfg.rateLimit.timeWindow c)).length
          < cfg.rateLimit.maxRequests := by
      intro hW
      rw [← inv.agree hW u]
      rw [isRateLimited_eq] at hlim
      simpa using hlim
    have hstep : s.step cfg (.request u c)
        = { userRequests := updateRateLimit cfg c s.userRequests u,
            admitted := s.admitted ++ [(u, c)] } := by
      simp [LimiterRun.step, gatedRequest, hlim]
    rw [hstep]
    refine ⟨?_, ?_, ?_⟩
    · intro v t ht
      by_cases hv : v = u
      · subst hv
        rw [admittedOf_append_self] at ht
        rcases List.mem_append.mp ht with h | h
        · exact inv.past v t h
        · simp at h; omega
      · rw [admittedOf_append_other _ _ _ _ _ hv] at ht
        exact inv.past v t ht
    · intro hW v
      by_cases hv : v = u
      · subst hv
        rw [admittedOf_append_self]
        simp only [updateRateLimit_self, Option.getD_some, List.filter_filter, Bool.and_self]
        rw [List.filter_append, List.filter_append, inv.agree hW v]
        rfl
      · rw [admittedOf_append_other _ _ _ _ _ hv]
        simp only [updateRateLimit_other _ _ _ _ _ hv]
        exact inv.agree hW v
    · intro v T
      by_cases hv : v = u
      · subst hv
        rw [admittedOf_append_self]
        exact countP_inInterval_admit cfg _ c (inv.past v) (inv.bound v) hroom T
      · rw [admittedOf_append_other _ _ _ _ _ hv]
        exact inv.bound v T
  · have hstep : s.step cfg (.request u c) = s := by
      simp [LimiterRun.step, gatedRequest, hlim]
    rw [hstep]; exact inv

theorem cleanupRateLimitData_getD (cfg : Config) (c : Nat) (r : RateStore) (u : UserId) :
    (cleanupRateLimitData cfg c r u).getD []
      = ((r u).getD []).filter (within (cfg.rateLimit.timeWindow * 2) c) := by
  simp only [cleanupRateLimitData]
  cases h : r u with
  | none => simp
  | some ts =>
    by_cases hl : (ts.filter (within (cfg.rateLimit.timeWindow * 2) c)).length = 0
    · simp only [hl, if_true, Option.getD_none, Option.getD_some]
      exact (List.length_eq_zero.mp hl).symm
    · simp [hl]

/-- A run of the cleanup at the current clock reading keeps the invariant. -/
theorem LimiterInv.cleanup {cfg : Config} {s : LimiterRun} {c : Nat}
    (inv : LimiterInv cfg s c) : LimiterInv cfg (s.step cfg (.cleanup c)) c := by
  refine ⟨inv.past, ?_, inv.bound⟩
  intro hW u
  have := inv.agree hW u
  simp only [LimiterRun.step, cleanupRateLimitData_getD, List.filter_filter]
  rw [← admittedOf_store s.userRequests, ← this]
  apply List.filter_congr
  intro t _
  cases h1 : within cfg.rateLimit.timeWindow c t
  · simp
  · simp only [within, decide_eq_true_eq] at h1 ⊢
    simp only [Bool.true_and, decide_eq_true_eq]
    omega

/-- The invariant holds along every run whose clock never goes back. -/
theorem LimiterInv.run (cfg : Config) :
    ∀ (steps : List LimiterStep) (s : LimiterRun) (c : Nat), LimiterInv cfg s c →
      (∀ st ∈ steps, c ≤ st.time) →
      List.Pairwise (fun a b : LimiterStep => a.time ≤ b.time) steps →
      ∃ c1, LimiterInv cfg (s.run cfg steps) c1 := by
  intro steps
  induction steps with
  | nil => intro s c inv _ _; exact ⟨c, inv⟩
  | cons st steps ih =>
    intro s c inv hc hpw
    have hadv := inv.advance (hc st (List.mem_cons_self _ _))
    have hnext : LimiterInv cfg (s.step cfg st) st.time := by
      cases st with
      | request u now => exact hadv.request u
      | cleanup now => exact hadv.cleanup
    exact ih (s.step cfg st) st.time hnext (List.pairwise_cons.mp hpw).1
      (List.pairwise_cons.mp hpw).2

/-- C3 (sliding-window bound).  Start from the empty store and take any sequence of
steps, each a gated request of some user or a run of `cleanupRateLimitData`, whose clock
readings never decrease.  Then for every user and every instant `T`, the admitted
requests of that user with timestamp in the half-open interval `(T - timeWindow, T]`
number at most `maxRequests`. -/
theorem sliding_window_bound (cfg : Config) (steps : List LimiterStep)
    (hclock : List.Pairwise (fun a b : LimiterStep => a.time ≤ b.time) steps)
    (u : UserId) (T : Int) :
    ((LimiterRun.initial.run cfg steps).admittedOf u).countP
        (inInterval cfg.rateLimit.timeWindow T)
      ≤ cfg.rateLimit.maxRequests := by
  obtain ⟨c1, inv⟩ := LimiterInv.run cfg steps LimiterRun.initial 0 (LimiterInv.initial cfg)
    (fun _ _ => Nat.zero_le _) hclock
  exact inv.bound u T

/-- C3 on a run at the shipped limits: user 7 asks seven times within a minute, with a
cleanup in between, and is admitted five times; the interval ending at 59000 holds all
five admitted requests. -/
theorem sliding_window_bound_witness :
    ((LimiterRun.initial.run (config sampleEnv)
        [.request 7 1000, .request 7 1000, .request 8 1500, .request 7 2000, .cleanup 2500,
         .request 7 30000, .request 7 40000, .request 7 50000, .request 7 59000]).admittedOf 7
      = [1000, 1000, 2000, 30000, 40000])
    ∧ ((LimiterRun.initial.run (config sampleEnv)
        [.request 7 1000, .request 7 1000, .request 8 1500, .request 7 2000, .cleanup 2500,
         .request 7 30000, .request 7 40000, .request 7 50000, .request 7 59000]).admittedOf 7).countP
          (inInterval (config sampleEnv).rateLimit.timeWindow 59000)
        ≤ (config sampleEnv).rateLimit.maxRequests :=
  ⟨by decide, sliding_window_bound (config sampleEnv) _ (by decide) 7 59000⟩

/-! ## Verification state -/

theorem incrementVerificationAttempts_attempts (cfg : Config) (now : Nat) (t : Tracker)
    (u : UserId) :
    failedAttempts (incrementVerificationAttempts cfg now t u) u = failedAttempts t u + 1 := by
  unfold incrementVerificationAttempts
  simp only []
  split <;> simp [setUserCooldown, failedAttempts, JsMap.set]

theorem incrementVerificationAttempts_cooldown (cfg : Config) (now : Nat) (t : Tracker)
    (u : UserId) :
    (incrementVerificationAttempts cfg now t u).verificationCooldowns u
      = if cfg.verification.maxAttempts ≤ failedAttempts t u + 1
        then some ((now : Int) + cfg.verification.cooldownTime)
        else t.verificationCooldowns u := by
  unfold incrementVerificationAttempts
  simp only []
  by_cases h : cfg.verification.maxAttempts ≤ failedAttempts t u + 1
  · simp [h, setUserCooldown, JsMap.set]
  · simp [h]

/-- Failures that stay below `maxAttempts` are counted and set no cooldown. -/
theorem failedVerifications_below (cfg : Config) (u : UserId) :
    ∀ (times : List Nat) (t : Tracker),
      failedAttempts t u + times.length < cfg.verification.maxAttempts →
      t.verificationCooldowns u = none →
      failedAttempts (failedVerifications cfg u times t) u = failedAttempts t u + times.length
        ∧ (failedVerifications cfg u times t).verificationCooldowns u = none := by
  intro times
  induction times with
  | nil => intro t _ hcd; exact ⟨rfl, hcd⟩
  | cons now times ih =>
    intro t hlt hcd
    simp only [List.length_cons] at hlt
    have hatt := incrementVerificationAttempts_attempts cfg now t u
    have hcd1 : (incrementVerificationAttempts cfg now t u).verificationCooldowns u = none := by
      rw [incrementVerificationAttempts_cooldown, if_neg (by omega), hcd]
    have := ih (incrementVerificationAttempts cfg now t u) (by omega) hcd1
    simp only [failedVerifications, List.foldl_cons, List.length_cons] at this ⊢
    refine ⟨by rw [this.1, hatt]; omega, this.2⟩

theorem failedVerifications_append (cfg : Config) (u : UserId) (times : List Nat) (t0 : Nat)
    (t : Tracker) :
    failedVerifications cfg u (times ++ [t0]) t
      = incrementVerificationAttempts cfg t0 (failedVerifications cfg u times t) u := by
  simp [failedVerifications, List.foldl_append]

/-- C4 (cooldown after `maxAttempts` failures).  Take a user with no recorded attempts and
no cooldown, and `cooldownTime > 0` (`maxAttempts ≥ 1` is implied where a list of
`maxAttempts` calls ends with the call at `t0`).  After fewer than `maxAttempts`
calls of `incrementVerificationAttempts` the user is in cooldown at no time.  After exactly
`maxAttempts` consecutive calls, the last at time `t0`: at every time `now` with
`t0 ≤ now < t0 + cooldownTime`, `isUserInCooldown` is truthy and
`0 < getCooldownTime ≤ cooldownTime`; at every time `now ≥ t0 + cooldownTime`,
`isUserInCooldown` is falsy. -/
theorem cooldown_after_max_attempts (cfg : Config) (t : Tracker) (u : UserId)
    (hattempts : failedAttempts t u = 0)
    (hcooldown : t.verificationCooldowns u = none)
    (hcool : 0 < cfg.verification.cooldownTime) :
    (∀ (times : List Nat) (now : Nat), times.length < cfg.verification.maxAttempts →
        isUserInCooldown now (failedVerifications cfg u times t) u = false)
      ∧ (∀ (times : List Nat) (t0 now : Nat),
          (times ++ [t0]).length = cfg.verification.maxAttempts →
          (t0 ≤ now → (now : Int) < (t0 : Int) + cfg.verification.cooldownTime →
            isUserInCooldown now (failedVerifications cfg u (times ++ [t0]) t) u = true
              ∧ 0 < getCooldownTime now (failedVerifications cfg u (times ++ [t0]) t) u
              ∧ getCooldownTime now (failedVerifications cfg u (times ++ [t0]) t) u
                  ≤ cfg.verification.cooldownTime)
          ∧ ((t0 : Int) + cfg.verification.cooldownTime ≤ (now : Int) →
            isUserInCooldown now (failedVerifications cfg u (times ++ [t0]) t) u = false)) := by
  constructor
  · intro times now hlt
    have := (failedVerifications_below cfg u times t (by omega) hcooldown).2
    simp [isUserInCooldown, this]
  · intro times t0 now hlen
    simp only [List.length_append, List.length_singleton] at hlen
    have hbelow := failedVerifications_below cfg u times t (by omega) hcooldown
    have hcd : (failedVerifications cfg u (times ++ [t0]) t).verificationCooldowns u
        = some ((t0 : Int) + cfg.verification.cooldownTime) := by
      rw [failedVerifications_append, incrementVerificationAttempts_cooldown, hbelow.1,
        if_pos (by omega)]
    have hne : (t0 : Int) + cfg.verification.cooldownTime ≠ 0 := by omega
    constructor
    · intro h1 h2
      simp only [isUserInCooldown, getCooldownTime, hcd, hne, ne_eq, not_false_eq_true,
        decide_True, Bool.true_and, decide_eq_true_eq, if_true]
      omega
    · intro h1
      simp only [isUserInCooldown, hcd, Bool.and_eq_false_imp, decide_eq_true_eq,
        decide_eq_false_iff_not, not_lt]
      intro _
      omega

/-- C4 at the shipped settings (3 attempts, 300000 ms): failures at times 10, 20 and 30. -/
theorem cooldown_after_max_attempts_witness :
    (∀ (times : List Nat) (now : Nat),
        times.length < (config sampleEnv).verification.maxAttempts →
        isUserInCooldown now (failedVerifications (config sampleEnv) 7 times Tracker.initial) 7
          = false)
      ∧ (∀ (times : List Nat) (t0 now : Nat),
          (times ++ [t0]).length = (config sampleEnv).verification.maxAttempts →
          (t0 ≤ now → (now : Int) < (t0 : Int) + (config sampleEnv).verification.cooldownTime →
            isUserInCooldown now
                (failedVerifications (config sampleEnv) 7 (times ++ [t0]) Tracker.initial) 7 = true
              ∧ 0 < getCooldownTime now
                (failedVerifications (config sampleEnv) 7 (times ++ [t0]) Tracker.initial) 7
              ∧ getCooldownTime now
                (failedVerifications (config sampleEnv) 7 (times ++ [t0]) Tracker.initial) 7
                  ≤ (config sampleEnv).verification.cooldownTime)
          ∧ ((t0 : Int) + (config sampleEnv).verification.cooldownTime ≤ (now : Int) →
            isUserInCooldown now
                (failedVerifications (config sampleEnv) 7 (times ++ [t0]) Tracker.initial) 7
              = false))
      ∧ isUserInCooldown 300029
          (failedVerifications (config sampleEnv) 7 [10, 20, 30] Tracker.initial) 7 = true
      ∧ getCooldownTime 300029
          (failedVerifications (config sampleEnv) 7 [10, 20, 30] Tracker.initial) 7 = 1
      ∧ isUserInCooldown 300030
          (failedVerifications (config sampleEnv) 7 [10, 20, 30] Tracker.initial) 7 = false :=
  ⟨(cooldown_after_max_attempts (config sampleEnv) Tracker.initial 7 rfl rfl
      (by decide)).1,
   (cooldown_after_max_attempts (config sampleEnv) Tracker.initial 7 rfl rfl
      (by decide)).2,
   by decide, by decide, by decide⟩

/-- C5 (success resets the record).  After `addVerifiedUser(u)`, from any state: `u` is
verified, has no recorded attempts (`failedAttempts` reads 0), is not in cooldown and has
remaining cooldown 0 at every time; and for every other user the verified flag, the
attempts and the cooldown are unchanged. -/
theorem addVerifiedUser_resets (t : Tracker) (u : UserId) :
    isUserVerified (addVerifiedUser t u) u = true
      ∧ (addVerifiedUser t u).verificationAttempts u = none
      ∧ failedAttempts (addVerifiedUser t u) u = 0
      ∧ (addVerifiedUser t u).verificationCooldowns u = none
      ∧ (∀ now, isUserInCooldown now (addVerifiedUser t u) u = false)
      ∧ (∀ now, getCooldownTime now (addVerifiedUser t u) u = 0)
      ∧ (∀ v, v ≠ u →
          isUserVerified (addVerifiedUser t u) v = isUserVerified t v
            ∧ (addVerifiedUser t u).verificationAttempts v = t.verificationAttempts v
            ∧ (addVerifiedUser t u).verificationCooldowns v = t.verificationCooldowns v) := by
  have hset : ∀ v, v ∈ JsSet.add t.verifiedUsers u ↔ v ∈ t.verifiedUsers ∨ v = u := by
    intro v
    unfold JsSet.add
    by_cases h : u ∈ t.verifiedUsers
    · simp only [h, if_true]
      constructor
      · exact Or.inl
      · rintro (h1 | h1)
        · exact h1
        · rw [h1]; exact h
    · simp [h]
  refine ⟨?_, ?_, ?_, ?_, ?_, ?_, ?_⟩
  · simp [isUserVerified, JsSet.has, addVerifiedUser, hset]
  · simp [addVerifiedUser, JsMap.delete]
  · simp [failedAttempts, addVerifiedUser, JsMap.delete]
  · simp [addVerifiedUser, JsMap.delete]
  · intro now; simp [isUserInCooldown, addVerifiedUser, JsMap.delete]
  · intro now; simp [getCooldownTime, addVerifiedUser, JsMap.delete]
  · intro v hv
    refine ⟨?_, ?_, ?_⟩
    · simp [isUserVerified, JsSet.has, addVerifiedUser, hset, hv]
    · simp [addVerifiedUser, JsMap.delete, hv]
    · simp [addVerifiedUser, JsMap.delete, hv]

/-! ## The monad of asynchronous functions -/

theorem run_pure {α : Type} (a : α) (w : World) : (pure a : Act α) w = (.ok a, w) := rfl

theorem run_bind {α β : Type} (x : Act α) (f : α → Act β) (w : World) :
    (x >>= f) w = match x w with
      | (.ok a, w1) => f a w1
      | (.error e, w1) => (.error e, w1) := rfl

theorem World.after_nil (w : World) : w.after [] = w := by
  simp [World.after]

theorem World.after_after (w : World) (e1 e2 : List Event) :
    (w.after e1).after e2 = w.after (e1 ++ e2) := by
  simp [World.after]

/-! ## Membership queries -/

theorem checkChannelMembership_run (env : Collaborators) (u : UserId) (ch : ChannelId)
    (w : World) :
    checkChannelMembership env u ch w
      = (.ok (reportsJoined env u ch), w.after [Event.getChatMember ch u]) := by
  simp only [checkChannelMembership, reportsJoined, run_bind, Act.emit, World.after]
  cases env.getChatMember ch u <;> rfl

theorem verifyUserMembershipLoop_run (env : Collaborators) (u : UserId) :
    ∀ (channels : List Channel) (results : JsObject) (w : World),
      verifyUserMembershipLoop env u channels results w
        = (.ok (channels.foldl (fun acc ch => acc.set ch.id (reportsJoined env u ch.id)) results),
           w.after (channels.map (fun ch => Event.getChatMember ch.id u))) := by
  intro channels
  induction channels with
  | nil => intro results w; simp [verifyUserMembershipLoop, run_pure, World.after_nil]
  | cons ch rest ih =>
    intro results w
    simp only [verifyUserMembershipLoop, run_bind, checkChannelMembership_run, ih,
      World.after_after, List.foldl_cons, List.map_cons, List.singleton_append]

theorem JsObject.get_set (r : JsObject) (k k1 : String) (v : Bool) :
    JsObject.get (JsObject.set r k v) k1 = if k1 = k then v else JsObject.get r k1 := by
  induction r with
  | nil =>
    by_cases h : k1 = k
    · simp [JsObject.set, JsObject.get, h]
    · simp [JsObject.set, JsObject.get, h, Ne.symm h]
  | cons p rest ih =>
    obtain ⟨k0, v0⟩ := p
    by_cases h0 : k0 = k
    · by_cases h : k1 = k
      · simp [JsObject.set, JsObject.get, h0, h]
      · simp [JsObject.set, JsObject.get, h0, h, Ne.symm h]
    · by_cases h : k0 = k1
      · have : ¬ k1 = k := fun hk => h0 (h.trans hk)
        simp [JsObject.set, JsObject.get, h0, h, this]
      · simp [JsObject.set, JsObject.get, h0, h, ih]

theorem JsObject.keys_set (r : JsObject) (k : String) (v : Bool) :
    (JsObject.set r k v).map Prod.fst
      = if k ∈ r.map Prod.fst then r.map Prod.fst else r.map Prod.fst ++ [k] := by
  induction r with
  | nil => simp [JsObject.set]
  | cons p rest ih =>
    obtain ⟨k0, v0⟩ := p
    by_cases h0 : k0 = k
    · simp [JsObject.set, h0]
    · by_cases hk : k ∈ rest.map Prod.fst
      · simp only [JsObject.set, h0, if_false, List.map_cons, ih, hk, if_true,
          List.mem_cons, or_true]
      · have : ¬ (k = k0 ∨ k ∈ List.map Prod.fst rest) := by
          rintro (h | h)
          · exact h0 h.symm
          · exact hk h
        simp only [JsObject.set, h0, if_false, List.map_cons, ih, hk, List.mem_cons, this,
          List.cons_append]
        simp [Ne.symm h0]

/-- The value the loop of `verifyUserMembership` leaves under a key. -/
theorem membership_foldl_get (env : Collaborators) (u : UserId) :
    ∀ (channels : List Channel) (results : JsObject) (k : String),
      JsObject.get
          (channels.foldl (fun acc ch => acc.set ch.id (reportsJoined env u ch.id)) results) k
        = if k ∈ channels.map (fun ch => ch.id) then reportsJoined env u k
          else JsObject.get results k := by
  intro channels
  induction channels with
  | nil => intro results k; simp
  | cons ch rest ih =>
    intro results k
    rw [List.foldl_cons, ih, JsObject.get_set]
    by_cases h1 : k ∈ rest.map (fun ch => ch.id)
    · simp [h1]
    · by_cases h2 : k = ch.id
      · simp [h1, h2]
      · simp [h1, h2]

/-- The keys the loop of `verifyUserMembership` leaves, for distinct fresh channel ids. -/
theorem membership_foldl_keys (env : Collaborators) (u : UserId) :
    ∀ (channels : List Channel) (results : JsObject),
      (channels.map (fun ch => ch.id)).Nodup →
      (∀ ch ∈ channels, ch.id ∉ results.map Prod.fst) →
      (channels.foldl (fun acc ch => acc.set ch.id (reportsJoined env u ch.id)) results).map
          Prod.fst
        = results.map Prod.fst ++ channels.map (fun ch => ch.id) := by
  intro channels
  induction channels with
  | nil => intro results _ _; simp
  | cons ch rest ih =>
    intro results hnodup hfresh
    rw [List.map_cons, List.nodup_cons] at hnodup
    have hch : ch.id ∉ results.map Prod.fst := hfresh ch (List.mem_cons_self _ _)
    rw [List.foldl_cons, ih _ hnodup.2, JsObject.keys_set, if_neg hch]
    · simp
    · intro c hc
      rw [JsObject.keys_set, if_neg hch]
      intro hmem
      rcases List.mem_append.mp hmem with h | h
      · exact hfresh c (List.mem_cons_of_mem _ hc) h
      · simp only [List.mem_singleton] at h
        exact hnodup.1 (h ▸ List.mem_map_of_mem (fun ch => ch.id) hc)

theorem verifyUserMembership_run (cfg : Config) (env : Collaborators) (u : UserId) (w : World) :
    verifyUserMembership cfg env u w
      = (.ok (cfg.privateChannels.foldl
                (fun acc ch => acc.set ch.id (reportsJoined env u ch.id)) []),
         w.after (cfg.privateChannels.map (fun ch => Event.getChatMember ch.id u))) :=
  verifyUserMembershipLoop_run env u cfg.privateChannels [] w

theorem allRequiredJoinedOf_iff (cfg : Config) (status : JsObject) :
    allRequiredJoinedOf cfg status = true
      ↔ ∀ ch ∈ cfg.privateChannels, ch.required = true → JsObject.get status ch.id = true := by
  simp only [allRequiredJoinedOf, List.all_eq_true, List.mem_filter, and_imp]

theorem getUserMembershipStatus_run (cfg : Config) (env : Collaborators) (u : UserId)
    (w : World) :
    getUserMembershipStatus cfg env u w
      = (.ok { status := cfg.privateChannels.foldl
                  (fun acc ch => acc.set ch.id (reportsJoined env u ch.id)) [],
               allRequiredJoined := allRequiredJoinedOf cfg
                  (cfg.privateChannels.foldl
                    (fun acc ch => acc.set ch.id (reportsJoined env u ch.id)) []) },
         w.after (cfg.privateChannels.map (fun ch => Event.getChatMember ch.id u))) := by
  simp only [getUserMembershipStatus, run_bind, verifyUserMembership_run, run_pure]

theorem isMemberStatus_iff (status : String) :
    isMemberStatus status = true ↔ status ∈ ["member", "administrator", "creator"] := by
  simp [isMemberStatus]

theorem reportsJoined_iff (env : Collaborators) (u : UserId) (ch : ChannelId) :
    reportsJoined env u ch = true
      ↔ ∃ status, env.getChatMember ch u = some status
          ∧ status ∈ ["member", "administrator", "creator"] := by
  unfold reportsJoined
  cases h : env.getChatMember ch u with
  | none => simp
  | some status => simp [isMemberStatus_iff]

/-- C7 (the membership query fails closed).  For every user, every behaviour of the
membership collaborator (per channel a status or a failure) and pairwise distinct
configured channel ids: `verifyUserMembership` returns normally, its only effect is one
`getChatMember` query per configured channel (in configuration order), and the object it
returns has exactly the configured channel ids as keys, the value under a channel being
true if and only if the collaborator returned one of `member`, `administrator`,
`creator` for it (so false for any other status and for a failed query).
`getUserMembershipStatus` makes the same queries, returns the same properties, and
`allRequiredJoined` is true if and only if every channel with `required = true` maps to
true. -/
theorem membership_query_fails_closed (cfg : Config) (env : Collaborators) (u : UserId)
    (w : World) (hdistinct : (cfg.privateChannels.map (fun ch => ch.id)).Nodup) :
    ∃ (results : JsObject) (allRequiredJoined : Bool),
      verifyUserMembership cfg env u w
          = (.ok results,
             w.after (cfg.privateChannels.map (fun ch => Event.getChatMember ch.id u)))
        ∧ (results.map Prod.fst).Perm (cfg.privateChannels.map (fun ch => ch.id))
        ∧ (∀ ch ∈ cfg.privateChannels,
            (JsObject.get results ch.id = true
              ↔ ∃ status, env.getChatMember ch.id u = some status
                  ∧ status ∈ ["member", "administrator", "creator"]))
        ∧ getUserMembershipStatus cfg env u w
            = (.ok { status := results, allRequiredJoined := allRequiredJoined },
               w.after (cfg.privateChannels.map (fun ch => Event.getChatMember ch.id u)))
        ∧ (allRequiredJoined = true
            ↔ ∀ ch ∈ cfg.privateChannels, ch.required = true →
                JsObject.get results ch.id = true) := by
  refine ⟨_, _, verifyUserMembership_run cfg env u w, ?_, ?_,
    getUserMembershipStatus_run cfg env u w, allRequiredJoinedOf_iff cfg _⟩
  · rw [membership_foldl_keys env u cfg.privateChannels [] hdistinct (by simp)]
    simp
  · intro ch hch
    rw [membership_foldl_get, if_pos (List.mem_map_of_mem (fun ch => ch.id) hch)]
    exact reportsJoined_iff env u ch.id

/-- C7 on the shipped channel list: user 8 (member, kicked, failed query, failed query,
failed query) gets `true` for the first channel only and `allRequiredJoined = false`. -/
theorem membership_query_fails_closed_witness :
    (∃ (results : JsObject) (allRequiredJoined : Bool),
      verifyUserMembership (config sampleEnv) sampleCollaborators 8 World.initial
          = (.ok results,
             World.initial.after
              ((config sampleEnv).privateChannels.map (fun ch => Event.getChatMember ch.id 8)))
        ∧ (results.map Prod.fst).Perm ((config sampleEnv).privateChannels.map (fun ch => ch.id))
        ∧ (∀ ch ∈ (config sampleEnv).privateChannels,
            (JsObject.get results ch.id = true
              ↔ ∃ status, sampleCollaborators.getChatMember ch.id 8 = some status
                  ∧ status ∈ ["member", "administrator", "creator"]))
        ∧ getUserMembershipStatus (config sampleEnv) sampleCollaborators 8 World.initial
            = (.ok { status := results, allRequiredJoined := allRequiredJoined },
               World.initial.after
                ((config sampleEnv).privateChannels.map (fun ch => Event.getChatMember ch.id 8)))
        ∧ (allRequiredJoined = true
            ↔ ∀ ch ∈ (config sampleEnv).privateChannels, ch.required = true →
                JsObject.get results ch.id = true))
      ∧ (verifyUserMembership (config sampleEnv) sampleCollaborators 8 World.initial).1
          = .ok [("-1001", true), ("-1002", false), ("-1003", false), ("-1004", false),
                 ("-2001", false)]
      ∧ ((getUserMembershipStatus (config sampleEnv) sampleCollaborators 7 World.initial).1
          = .ok { status := [("-1001", true), ("-1002", true), ("-1003", true), ("-1004", true),
                             ("-2001", false)],
                  allRequiredJoined := true }) :=
  ⟨membership_query_fails_closed (config sampleEnv) sampleCollaborators 8 World.initial
    (by decide), by rfl, by rfl⟩

/-! ## Sending a file -/

/-- What `sendFileToUser` does when the file exists: one transport call (the rejection or
the delivery), one removal of the file, and, if that call threw, the fallback reply. -/
theorem sendFileToUser_existing (cfg : Config) (env : Collaborators) (p : String)
    (info : FileInfo) (w : World) (size : Nat) (hfile : w.fs p = some size) :
    sendFileToUser cfg env p info w
      = if env.transportFails w.trace.length then
          (if env.transportFails (w.trace.length + 2) then .error .transportError else .ok (),
           { w with
              fs := FileSystem.remove w.fs p,
              trace := w.trace ++ [Event.transport (firstCall cfg p info size),
                Event.unlinked p, Event.transport (.reply .errorSending)] })
        else
          (.ok (),
           { w with
              fs := FileSystem.remove w.fs p,
              trace := w.trace ++ [Event.transport (firstCall cfg p info size),
                Event.unlinked p] }) := by
  by_cases hbig : size > cfg.telegram.maxFileSize
  · cases h1 : env.transportFails w.trace.length
    · simp [sendFileToUser, Act.tryCatch, run_bind, Act.statSyncSize, Act.existsSync,
        Act.transport, Act.unlinkSync, hfile, hbig, h1, firstCall]
    · cases h2 : env.transportFails (w.trace.length + 2) <;>
        simp [sendFileToUser, Act.tryCatch, run_bind, Act.statSyncSize, Act.existsSync,
          Act.transport, Act.unlinkSync, hfile, hbig, h1, h2, firstCall, run_pure]
  · cases h1 : env.transportFails w.trace.length
    · simp [sendFileToUser, Act.tryCatch, run_bind, Act.statSyncSize, Act.existsSync,
        Act.transport, Act.unlinkSync, hfile, hbig, h1, firstCall]
    · cases h2 : env.transportFails (w.trace.length + 2) <;>
        simp [sendFileToUser, Act.tryCatch, run_bind, Act.statSyncSize, Act.existsSync,
          Act.transport, Act.unlinkSync, hfile, hbig, h1, h2, firstCall, run_pure]

theorem isDelivery_unlinked (p : String) : (Event.unlinked p).isDelivery = false := rfl

theorem isDelivery_reply (m : Message) : (Event.transport (.reply m)).isDelivery = false := rfl

theorem isTooLarge_unlinked (p : String) : (Event.unlinked p).isTooLarge = false := rfl

theorem isTooLarge_errorSending :
    (Event.transport (.reply .errorSending)).isTooLarge = false := rfl

theorem deliveryCall_isDelivery (cfg : Config) (p : String) (info : FileInfo) (size : Nat) :
    (Event.transport (deliveryCall cfg p info size)).isDelivery = true := by
  unfold deliveryCall
  split
  · rfl
  · split
    · split <;> rfl
    · split
      · split <;> rfl
      · rfl

theorem deliveryCall_isTooLarge (cfg : Config) (p : String) (info : FileInfo) (size : Nat) :
    (Event.transport (deliveryCall cfg p info size)).isTooLarge = false := by
  unfold deliveryCall
  split
  · rfl
  · split
    · split <;> rfl
    · split
      · split <;> rfl
      · rfl

/-- The routing rule of `deliveryCall`, case by case. -/
theorem deliveryCall_rule (cfg : Config) (p : String) (info : FileInfo) (size : Nat) :
    (info.type = "folder" ∨ endsWith p ".zip" = true →
        deliveryCall cfg p info size = .replyWithDocument p)
      ∧ (¬ (info.type = "folder" ∨ endsWith p ".zip" = true) →
          (deliveryCall cfg p info size = .replyWithVideo p
              ↔ info.fileType = some "video" ∧ size ≤ cfg.telegram.maxVideoSize)
            ∧ (deliveryCall cfg p info size = .replyWithPhoto p
              ↔ info.fileType = some "image" ∧ size ≤ cfg.telegram.maxPhotoSize)
            ∧ (¬ (info.fileType = some "video" ∧ size ≤ cfg.telegram.maxVideoSize) →
                ¬ (info.fileType = some "image" ∧ size ≤ cfg.telegram.maxPhotoSize) →
                deliveryCall cfg p info size = .replyWithDocument p)) := by
  constructor
  · intro h
    have : (info.type == "folder" || endsWith p ".zip") = true := by
      rcases h with h | h
      · simp [h]
      · simp [h]
    simp [deliveryCall, this]
  · intro h
    have h0 : (info.type == "folder" || endsWith p ".zip") = false := by
      simp only [not_or] at h
      simp [h.1, h.2]
    by_cases hv : info.fileType = some "video"
    · by_cases hs : size ≤ cfg.telegram.maxVideoSize
      · simp [deliveryCall, h0, hv, hs]
      · simp [deliveryCall, h0, hv, hs]
    · by_cases hi : info.fileType = some "image"
      · by_cases hs : size ≤ cfg.telegram.maxPhotoSize
        · simp [deliveryCall, h0, hi, hs]
        · simp [deliveryCall, h0, hi, hs]
      · simp [deliveryCall, h0, hv, hi]

/-- C8 (delivery routing with downgrade).  For every configuration and every existing
artifact whose size is at most `maxFileSize`, `sendFileToUser` makes exactly one delivery
call and never sends the too-large rejection.  The call is a document delivery if
`fileInfo.type` is `folder` or the path ends with `.zip`; otherwise it is a video
delivery exactly when `fileType` is `video` and the size is at most `maxVideoSize`, a
photo delivery exactly when `fileType` is `image` and the size is at most `maxPhotoSize`,
and a document delivery in every other case.  (So a video above `maxVideoSize`, or an
image above `maxPhotoSize`, goes out as a document.) -/
theorem delivery_routing (cfg : Config) (env : Collaborators) (p : String) (info : FileInfo)
    (w : World) (size : Nat) (hfile : w.fs p = some size)
    (hsize : size ≤ cfg.telegram.maxFileSize) :
    ∃ (call : TransportCall) (events : List Event),
      (sendFileToUser cfg env p info w).2.trace = w.trace ++ events
        ∧ events.filter Event.isDelivery = [Event.transport call]
        ∧ events.filter Event.isTooLarge = []
        ∧ (info.type = "folder" ∨ endsWith p ".zip" = true → call = .replyWithDocument p)
        ∧ (¬ (info.type = "folder" ∨ endsWith p ".zip" = true) →
            (call = .replyWithVideo p
                ↔ info.fileType = some "video" ∧ size ≤ cfg.telegram.maxVideoSize)
              ∧ (call = .replyWithPhoto p
                ↔ info.fileType = some "image" ∧ size ≤ cfg.telegram.maxPhotoSize)
              ∧ (¬ (info.fileType = some "video" ∧ size ≤ cfg.telegram.maxVideoSize) →
                  ¬ (info.fileType = some "image" ∧ size ≤ cfg.telegram.maxPhotoSize) →
                  call = .replyWithDocument p)) := by
  have hfirst : firstCall cfg p info size = deliveryCall cfg p info size := by
    simp [firstCall, Nat.not_lt.mpr hsize]
  have hd := deliveryCall_isDelivery cfg p info size
  have ht := deliveryCall_isTooLarge cfg p info size
  have hrule := deliveryCall_rule cfg p info size
  rw [sendFileToUser_existing cfg env p info w size hfile, hfirst]
  cases env.transportFails w.trace.length
  · exact ⟨_, _, rfl, by simp [List.filter, hd, isDelivery_unlinked],
      by simp [List.filter, ht, isTooLarge_unlinked], hrule.1, hrule.2⟩
  · exact ⟨_, _, rfl, by simp [List.filter, hd, isDelivery_unlinked, isDelivery_reply],
      by simp [List.filter, ht, isTooLarge_unlinked, isTooLarge_errorSending],
      hrule.1, hrule.2⟩

/-- C8 at the shipped limits: a 20 MiB image (above `maxPhotoSize`, 10 MiB) is sent with
`replyWithDocument`, then removed. -/
theorem delivery_routing_witness :
    (∃ (call : TransportCall) (events : List Event),
      (sendFileToUser (config sampleEnv) sampleCollaborators
          "/tmp/terabox_downloads/terabox_1.jpg" imageInfo worldWithImage).2.trace
          = worldWithImage.trace ++ events
        ∧ events.filter Event.isDelivery = [Event.transport call]
        ∧ events.filter Event.isTooLarge = []
        ∧ (imageInfo.type = "folder"
              ∨ endsWith "/tmp/terabox_downloads/terabox_1.jpg" ".zip" = true →
            call = .replyWithDocument "/tmp/terabox_downloads/terabox_1.jpg")
        ∧ (¬ (imageInfo.type = "folder"
              ∨ endsWith "/tmp/terabox_downloads/terabox_1.jpg" ".zip" = true) →
            (call = .replyWithVideo "/tmp/terabox_downloads/terabox_1.jpg"
                ↔ imageInfo.fileType = some "video"
                  ∧ 20 * 1024 * 1024 ≤ (config sampleEnv).telegram.maxVideoSize)
              ∧ (call = .replyWithPhoto "/tmp/terabox_downloads/terabox_1.jpg"
                ↔ imageInfo.fileType = some "image"
                  ∧ 20 * 1024 * 1024 ≤ (config sampleEnv).telegram.maxPhotoSize)
              ∧ (¬ (imageInfo.fileType = some "video"
                    ∧ 20 * 1024 * 1024 ≤ (config sampleEnv).telegram.maxVideoSize) →
                  ¬ (imageInfo.fileType = some "image"
                    ∧ 20 * 1024 * 1024 ≤ (config sampleEnv).telegram.maxPhotoSize) →
                  call = .replyWithDocument "/tmp/terabox_downloads/terabox_1.jpg")))
      ∧ (sendFileToUser (config sampleEnv) sampleCollaborators
          "/tmp/terabox_downloads/terabox_1.jpg" imageInfo worldWithImage).2.trace
          = [Event.transport (.replyWithDocument "/tmp/terabox_downloads/terabox_1.jpg"),
             Event.unlinked "/tmp/terabox_downloads/terabox_1.jpg"] :=
  ⟨delivery_routing (config sampleEnv) sampleCollaborators
      "/tmp/terabox_downloads/terabox_1.jpg" imageInfo worldWithImage (20 * 1024 * 1024)
      (by rfl) (by decide),
   by rfl⟩

/-! ## The admission gate -/

theorem allRequiredJoinedOf_queried (cfg : Config) (env : Collaborators) (u : UserId) :
    allRequiredJoinedOf cfg
        (cfg.privateChannels.foldl (fun acc ch => acc.set ch.id (reportsJoined env u ch.id)) [])
      = membershipSatisfied cfg env u := by
  unfold allRequiredJoinedOf membershipSatisfied
  have key : ∀ ch ∈ cfg.privateChannels.filter (fun channel => channel.required),
      JsObject.get
          (cfg.privateChannels.foldl
            (fun acc ch => acc.set ch.id (reportsJoined env u ch.id)) []) ch.id
        = reportsJoined env u ch.id := by
    intro ch hch
    have hmem : ch ∈ cfg.privateChannels := (List.mem_filter.mp hch).1
    rw [membership_foldl_get, if_pos (List.mem_map_of_mem (fun ch => ch.id) hmem)]
  rw [Bool.eq_iff_iff, List.all_eq_true, List.all_eq_true]
  constructor
  · intro h ch hch; rw [← key ch hch]; exact h ch hch
  · intro h ch hch; rw [key ch hch]; exact h ch hch

theorem allRequiredJoinedLoop_eq (cfg : Config) (status : JsObject) :
    allRequiredJoinedLoop cfg status = allRequiredJoinedOf cfg status := by
  have h : ∀ (l : List Channel) (acc : Bool),
      l.foldl (fun allRequiredJoined channel =>
          if (channel.required && !JsObject.get status channel.id) = true then false
          else allRequiredJoined) acc
        = (acc && (l.filter (fun channel => channel.required)).all
            (fun channel => JsObject.get status channel.id)) := by
    intro l
    induction l with
    | nil => intro acc; simp
    | cons ch rest ih =>
      intro acc
      rw [List.foldl_cons, ih]
      cases hr : ch.required <;> cases hg : JsObject.get status ch.id <;>
        simp [List.filter_cons, hr, hg]
  unfold allRequiredJoinedLoop allRequiredJoinedOf
  rw [h]
  simp

/-- What `checkAuth` does. -/
theorem checkAuth_run (cfg : Config) (env : Collaborators) (u : UserId) (w : World) :
    checkAuth cfg env u w
      = if isUserVerified w.tracker u then (.ok true, w)
        else if membershipSatisfied cfg env u then
          (.ok true,
           { w.after (membershipQueries cfg u) with tracker := addVerifiedUser w.tracker u })
        else (.ok false, w.after (membershipQueries cfg u)) := by
  by_cases hv : isUserVerified w.tracker u = true
  · simp [checkAuth, run_bind, Act.world, hv, run_pure]
  · by_cases hm : membershipSatisfied cfg env u = true
    · simp [checkAuth, run_bind, Act.world, hv, run_pure, getUserMembershipStatus_run,
        allRequiredJoinedOf_queried, hm, Act.modifyTracker, membershipQueries, World.after]
    · simp [checkAuth, run_bind, Act.world, hv, run_pure, getUserMembershipStatus_run,
        allRequiredJoinedOf_queried, hm, membershipQueries]

/-! ## Processing links -/

theorem transport_run (env : Collaborators) (call : TransportCall) (w : World) :
    Act.transport env call w
      = (if env.transportFails w.trace.length then .error .transportError else .ok (),
         w.after [Event.transport call]) := by
  unfold Act.transport World.after
  split <;> rfl

theorem Processed.refl (w : World) : Processed w w [] :=
  ⟨by simp, rfl, rfl, by simp, by simp, by simp⟩

theorem Processed.trans {w w1 w2 : World} {e1 e2 : List Event}
    (h1 : Processed w w1 e1) (h2 : Processed w1 w2 e2) : Processed w w2 (e1 ++ e2) where
  trace := by rw [h2.trace, h1.trace, List.append_assoc]
  tracker := by rw [h2.tracker, h1.tracker]
  userRequests := by rw [h2.userRequests, h1.userRequests]
  balanced := by intro q; rw [List.count_append, List.count_append, h1.balanced, h2.balanced]
  removed := by
    intro q hq
    by_cases hq2 : Event.created q ∈ e2
    · exact h2.removed q hq2
    · rw [h2.untouched q hq2]
      rcases List.mem_append.mp hq with h | h
      · exact h1.removed q h
      · exact absurd h hq2
  untouched := by
    intro q hq
    rw [List.mem_append, not_or] at hq
    rw [h2.untouched q hq.2, h1.untouched q hq.1]

/-- An event other than a creation or a removal, recorded without any other change. -/
theorem Processed.event (w : World) (e : Event) (hc : ∀ q, e ≠ Event.created q)
    (hu : ∀ q, e ≠ Event.unlinked q) : Processed w (w.after [e]) [e] where
  trace := rfl
  tracker := rfl
  userRequests := rfl
  balanced := by
    intro q
    rw [List.count_singleton, List.count_singleton]
    simp [hc q, hu q]
  removed := by
    intro q hq
    simp only [List.mem_singleton] at hq
    exact absurd hq.symm (hc q)
  untouched := by intro q _; rfl

theorem Processed.transport (env : Collaborators) (call : TransportCall) (w : World) :
    Processed w (Act.transport env call w).2 [Event.transport call] := by
  rw [transport_run]
  exact Processed.event w _ (by intro q h; cases h) (by intro q h; cases h)

/-- The two ways `downloadFile` can end: a caught failure that created nothing, or a new
file at the returned path. -/
theorem downloadFile_run (cfg : Config) (env : Collaborators) (link : String)
    (info : FileInfo) (w : World) :
    downloadFile cfg env link info w
        = (.ok (.failure "Download failed"), w.after [Event.downloadFile link])
      ∨ ∃ (path : String) (size : Nat) (isZip : Bool),
          downloadFile cfg env link info w
            = (.ok (.success path isZip),
               { w with fs := w.fs.write path size,
                        trace := w.trace ++ [Event.downloadFile link, Event.created path] }) := by
  cases hf : env.downloadFails w.trace.length
  · right
    cases ht : (info.type == "folder")
    · refine ⟨cfg.storage.tempDir ++ "/" ++ env.tempName w.trace.length ++
          (if info.fileType = some "video" then ".mp4"
           else if info.fileType = some "image" then ".jpg"
           else if info.fileType = some "document" then ".pdf" else ".bin"), 22, false, ?_⟩
      simp [downloadFile, run_bind, Act.world, Act.emit, hf, ht, Act.writeFileSync, run_pure]
    · refine ⟨cfg.storage.tempDir ++ "/" ++ env.tempName w.trace.length ++ ".zip", 24, true, ?_⟩
      simp [downloadFile, run_bind, Act.world, Act.emit, hf, ht, Act.writeFileSync, run_pure]
  · left
    simp [downloadFile, run_bind, Act.world, Act.emit, hf, run_pure, World.after]

/-- The function `sendFileToUser` on an existing file: the file is gone afterwards, removed by exactly
one `unlinkSync`, whatever the transport does. -/
theorem sendFileToUser_cleans (cfg : Config) (env : Collaborators) (p : String)
    (info : FileInfo) (w : World) (size : Nat) (hfile : w.fs p = some size) :
    ∃ (r : Except JsError Unit) (ev : List Event),
      sendFileToUser cfg env p info w
          = (r, { w with fs := w.fs.remove p, trace := w.trace ++ ev })
        ∧ ev.count (Event.unlinked p) = 1
        ∧ (∀ q, q ≠ p → ev.count (Event.unlinked q) = 0)
        ∧ (∀ q, ev.count (Event.created q) = 0) := by
  rw [sendFileToUser_existing cfg env p info w size hfile]
  cases env.transportFails w.trace.length
  · refine ⟨_, _, rfl, ?_, ?_, ?_⟩
    · simp [List.count_cons]
    · intro q hq; simp [List.count_cons, Ne.symm hq]
    · intro q; simp [List.count_cons]
  · refine ⟨_, _, rfl, ?_, ?_, ?_⟩
    · simp [List.count_cons]
    · intro q hq; simp [List.count_cons, Ne.symm hq]
    · intro q; simp [List.count_cons]

theorem getFileInfo_processed (w : World) (link : String) :
    Processed w (w.after [Event.getFileInfo link]) [Event.getFileInfo link] :=
  Processed.event w _ (by intro q h; cases h) (by intro q h; cases h)

theorem downloadFile_event_processed (w : World) (link : String) :
    Processed w (w.after [Event.downloadFile link]) [Event.downloadFile link] :=
  Processed.event w _ (by intro q h; cases h) (by intro q h; cases h)

/-- A download that created a file, followed by `sendFileToUser` on that file. -/
theorem download_and_send_processed (cfg : Config) (env : Collaborators) (link path : String)
    (size : Nat) (info : FileInfo) (w : World) :
    ∃ ev, Processed w
        (sendFileToUser cfg env path info
          { w with fs := w.fs.write path size,
                   trace := w.trace ++ [Event.downloadFile link, Event.created path] }).2 ev
      ∧ (∀ q, ev.count (Event.created q) ≤ 1) := by
  obtain ⟨r, ev, hrun, h1, h0, hc⟩ := sendFileToUser_cleans cfg env path info
    { w with fs := w.fs.write path size,
             trace := w.trace ++ [Event.downloadFile link, Event.created path] } size
    (by simp [FileSystem.write])
  rw [hrun]
  refine ⟨Event.downloadFile link :: Event.created path :: ev, ⟨?_, rfl, rfl, ?_, ?_, ?_⟩, ?_⟩
  · simp
  · intro q
    by_cases hq : q = path
    · subst hq; simp [List.count_cons, h1, hc]
    · simp [List.count_cons, h0 q hq, hc, Ne.symm hq]
  · intro q hq
    have hnot : Event.created q ∉ ev := List.count_eq_zero.mp (hc q)
    simp only [List.mem_cons, Event.created.injEq, hnot, or_false] at hq
    rcases hq with h | h
    · cases h
    · subst h; simp [FileSystem.remove]
  · intro q hq
    have hne : q ≠ path := by
      intro h; apply hq; subst h; simp
    simp [FileSystem.remove, FileSystem.write, hne]
  · intro q
    by_cases hq : q = path
    · subst hq; simp [List.count_cons, hc]
    · simp [List.count_cons, hc, Ne.symm hq]

/-- One pass of the loop body of `handleTeraboxLink`. -/
theorem processLink_processed (binding : Option Config) (cfg : Config) (env : Collaborators)
    (link : String) (w : World) :
    ∃ ev, Processed w (processLink binding cfg env link w).2 ev
      ∧ (∀ q, ev.count (Event.created q) ≤ 1) := by
  have hinfo := getFileInfo_processed w link
  have hplain : ∀ (call : TransportCall),
      ∃ ev, Processed w (Act.transport env call (w.after [Event.getFileInfo link])).2 ev
        ∧ (∀ q, ev.count (Event.created q) ≤ 1) := by
    intro call
    exact ⟨_, hinfo.trans (Processed.transport env call _), by intro q; simp [List.count_cons]⟩
  cases hres : env.fileInfoResult w.trace.length link with
  | nothing =>
    simpa [processLink, run_bind, Act.getFileInfo, hres, World.after] using hplain _
  | error message =>
    simpa [processLink, run_bind, Act.getFileInfo, hres, World.after] using hplain _
  | info fileInfo =>
    cases binding with
    | none =>
      have h : ∃ ev, Processed w (w.after [Event.getFileInfo link]) ev
          ∧ (∀ q, ev.count (Event.created q) ≤ 1) :=
        ⟨_, hinfo, by intro q; simp [List.count_cons]⟩
      simpa [processLink, run_bind, Act.getFileInfo, hres, readMaxFileSize, Act.throw,
        World.after] using h
    | some c =>
      by_cases hbig : fileInfo.size > c.telegram.maxFileSize
      · simpa [processLink, run_bind, Act.getFileInfo, hres, readMaxFileSize, run_pure, hbig,
          World.after] using hplain _
      · rcases downloadFile_run cfg env link fileInfo (w.after [Event.getFileInfo link])
          with hd | ⟨path, size, isZip, hd⟩
        · simp only [World.after] at hd
          have h : ∃ ev, Processed w
              (Act.transport env (.reply (.downloadFailed "Download failed"))
                ((w.after [Event.getFileInfo link]).after [Event.downloadFile link])).2 ev
              ∧ (∀ q, ev.count (Event.created q) ≤ 1) :=
            ⟨_, (hinfo.trans (downloadFile_event_processed _ link)).trans
              (Processed.transport env _ _), by intro q; simp [List.count_cons]⟩
          simpa [processLink, run_bind, Act.getFileInfo, hres, readMaxFileSize, run_pure,
            hbig, World.after, hd] using h
        · simp only [World.after] at hd
          obtain ⟨ev, hp, hc⟩ := download_and_send_processed cfg env link path size fileInfo
            (w.after [Event.getFileInfo link])
          have h : ∃ ev, Processed w
              (sendFileToUser cfg env path fileInfo
                { w.after [Event.getFileInfo link] with
                  fs := (w.after [Event.getFileInfo link]).fs.write path size,
                  trace := (w.after [Event.getFileInfo link]).trace
                    ++ [Event.downloadFile link, Event.created path] }).2 ev
              ∧ (∀ q, ev.count (Event.created q) ≤ 1) :=
            ⟨_, hinfo.trans hp, by intro q; simpa [List.count_cons] using hc q⟩
          simpa [processLink, run_bind, Act.getFileInfo, hres, readMaxFileSize, run_pure,
            hbig, World.after, hd] using h

theorem processed_bind {α β : Type} {x : Act α} {f : α → Act β} {w : World}
    (hx : ∃ ev, Processed w (x w).2 ev)
    (hf : ∀ a w1, ∃ ev, Processed w1 (f a w1).2 ev) :
    ∃ ev, Processed w ((x >>= f) w).2 ev := by
  rw [run_bind]
  obtain ⟨ev, hp⟩ := hx
  rcases hxw : x w with ⟨r, w1⟩
  rw [hxw] at hp
  cases r with
  | error e => exact ⟨ev, hp⟩
  | ok a =>
    obtain ⟨ev2, hp2⟩ := hf a w1
    exact ⟨ev ++ ev2, hp.trans hp2⟩

theorem processed_tryCatch {α : Type} {x : Act α} {h : JsError → Act α} {w : World}
    (hx : ∃ ev, Processed w (x w).2 ev)
    (hh : ∀ e w1, ∃ ev, Processed w1 (h e w1).2 ev) :
    ∃ ev, Processed w (Act.tryCatch x h w).2 ev := by
  unfold Act.tryCatch
  obtain ⟨ev, hp⟩ := hx
  rcases hxw : x w with ⟨r, w1⟩
  rw [hxw] at hp
  cases r with
  | ok a => exact ⟨ev, hp⟩
  | error e =>
    obtain ⟨ev2, hp2⟩ := hh e w1
    exact ⟨ev ++ ev2, hp.trans hp2⟩

theorem processLinks_processed (binding : Option Config) (cfg : Config) (env : Collaborators) :
    ∀ (links : List String) (w : World),
      ∃ ev, Processed w (processLinks binding cfg env links w).2 ev := by
  intro links
  induction links with
  | nil => intro w; exact ⟨[], by simpa [processLinks, run_pure] using Processed.refl w⟩
  | cons link rest ih =>
    intro w
    obtain ⟨ev, hp, _⟩ := processLink_processed binding cfg env link w
    exact processed_bind ⟨ev, hp⟩ (fun _ w1 => ih w1)

/-- The part of `handleTeraboxLink` after `updateRateLimit`: the progress message, the
`try` block with the loop, and the `catch` block. -/
theorem processing_processed (binding : Option Config) (cfg : Config) (env : Collaborators)
    (links : List String) (w : World) :
    ∃ ev, Processed w
      ((Act.transport env (.reply .processing) >>= fun _ =>
          Act.tryCatch
            (processLinks binding cfg env links >>= fun _ =>
              Act.transport env (.editMessageText .allProcessed))
            (fun _ => Act.transport env (.editMessageText .errorProcessing))) w).2
        ([Event.transport (.reply .processing)] ++ ev) := by
  rw [run_bind, transport_run]
  cases env.transportFails w.trace.length
  · obtain ⟨ev, hp⟩ := processed_tryCatch
      (x := processLinks binding cfg env links >>= fun _ =>
        Act.transport env (.editMessageText .allProcessed))
      (h := fun _ => Act.transport env (.editMessageText .errorProcessing))
      (w := w.after [Event.transport (.reply .processing)])
      (processed_bind (processLinks_processed binding cfg env links _)
        (fun _ w1 => ⟨_, Processed.transport env _ w1⟩))
      (fun _ w1 => ⟨_, Processed.transport env _ w1⟩)
    refine ⟨ev, ?_⟩
    have h0 : Processed w (w.after [Event.transport (.reply .processing)])
        [Event.transport (.reply .processing)] := by
      simpa [transport_run] using Processed.transport env (.reply .processing) w
    exact h0.trans hp
  · refine ⟨[], ?_⟩
    simpa [transport_run] using Processed.transport env (.reply .processing) w

/-- The four ways `handleTeraboxLink` can go. -/
theorem handleTeraboxLink_run (binding : Option Config) (cfg : Config) (env : Collaborators)
    (nowCheck nowUpdate : Nat) (u : UserId) (matched : List String) (w : World) :
    ((isUserVerified w.tracker u || membershipSatisfied cfg env u) = false →
        (handleTeraboxLink binding cfg env nowCheck nowUpdate u matched w).2
          = (w.after (membershipQueries cfg u)).after
              [Event.transport (.reply .joinRequiredChannels)])
      ∧ ((isUserVerified w.tracker u || membershipSatisfied cfg env u) = true →
          (isRateLimited cfg nowCheck w.userRequests u = true →
            (handleTeraboxLink binding cfg env nowCheck nowUpdate u matched w).2
              = (World.afterAuth cfg w u).after
                  [Event.transport (.reply .waitBeforeNextRequest)])
          ∧ (isRateLimited cfg nowCheck w.userRequests u = false → matched = [] →
            (handleTeraboxLink binding cfg env nowCheck nowUpdate u matched w).2
              = (World.afterAuth cfg w u).after [Event.transport (.reply .sendValidLink)])
          ∧ (isRateLimited cfg nowCheck w.userRequests u = false → matched ≠ [] →
            ∃ ev, Processed (World.afterAdmission cfg w nowUpdate u)
              (handleTeraboxLink binding cfg env nowCheck nowUpdate u matched w).2
              ([Event.transport (.reply .processing)] ++ ev))) := by
  cases hv : isUserVerified w.tracker u
  · cases hm : membershipSatisfied cfg env u
    · refine ⟨?_, by simp⟩
      intro _
      simp [handleTeraboxLink, run_bind, checkAuth_run, hv, hm, transport_run]
    · refine ⟨by simp, fun _ => ⟨?_, ?_, ?_⟩⟩
      · intro hlim
        simp [handleTeraboxLink, run_bind, checkAuth_run, hv, hm, transport_run, Act.world,
          World.after, hlim, World.afterAuth, authQueries, trackerAfterAuth]
      · intro hlim hmatched
        simp [handleTeraboxLink, run_bind, checkAuth_run, hv, hm, transport_run, Act.world,
          World.after, hlim, hmatched, World.afterAuth, authQueries, trackerAfterAuth]
      · intro hlim hmatched
        have hlen : ¬ matched.length = 0 := fun h => hmatched (List.length_eq_zero.mp h)
        obtain ⟨ev, hp⟩ := processing_processed binding cfg env matched
          (World.afterAdmission cfg w nowUpdate u)
        refine ⟨ev, ?_⟩
        simpa [handleTeraboxLink, run_bind, checkAuth_run, hv, hm, Act.world,
          World.after, hlim, hlen, World.afterAuth, authQueries, trackerAfterAuth,
          Act.modifyUserRequests, World.afterAdmission] using hp
  · refine ⟨by simp, fun _ => ⟨?_, ?_, ?_⟩⟩
    · intro hlim
      simp [handleTeraboxLink, run_bind, checkAuth_run, hv, transport_run, Act.world,
        World.after, hlim, World.afterAuth, authQueries, trackerAfterAuth]
    · intro hlim hmatched
      simp [handleTeraboxLink, run_bind, checkAuth_run, hv, transport_run, Act.world,
        World.after, hlim, hmatched, World.afterAuth, authQueries, trackerAfterAuth]
    · intro hlim hmatched
      have hlen : ¬ matched.length = 0 := fun h => hmatched (List.length_eq_zero.mp h)
      obtain ⟨ev, hp⟩ := processing_processed binding cfg env matched
        (World.afterAdmission cfg w nowUpdate u)
      refine ⟨ev, ?_⟩
      simpa [handleTeraboxLink, run_bind, checkAuth_run, hv, Act.world,
        World.after, hlim, hlen, World.afterAuth, authQueries, trackerAfterAuth,
        Act.modifyUserRequests, World.afterAdmission] using hp

/-- C1 (admission gate outcome).  `handleTeraboxLink` is called by the text handler of
`app.js` only when the link pattern matches the message text, so `matched` is not empty.
For every such request, every user and every state, the admission sequence (`checkAuth`,
then `isRateLimited`, then `updateRateLimit`) ends in exactly one of three ways.
(1) The user is not in the verified set and the on-demand membership query leaves a
required channel unjoined: the join-channels denial.  (2) Otherwise, if `isRateLimited` is
true: the rate-limit denial.  (3) Otherwise the request is admitted: `updateRateLimit`
appends the one timestamp `now` to the user's history and stores it pruned to the window
(for `timeWindow > 0`: the pruned old history followed by `now`), other users' histories
are unchanged, and processing starts.  In both denials the rate-limit store is unchanged
and the only events are the membership queries of `checkAuth` and the one reply, so no
link is resolved or fetched. -/
theorem admission_gate_outcome (binding : Option Config) (cfg : Config) (env : Collaborators)
    (nowCheck nowUpdate : Nat) (u : UserId) (matched : List String) (w : World)
    (hlink : matched ≠ []) :
    ((isUserVerified w.tracker u || membershipSatisfied cfg env u) = false →
        (afterLinkHandler binding cfg env nowCheck nowUpdate u matched w).userRequests
            = w.userRequests
          ∧ (afterLinkHandler binding cfg env nowCheck nowUpdate u matched w).trace
            = w.trace ++ membershipQueries cfg u
                ++ [Event.transport (.reply .joinRequiredChannels)])
      ∧ ((isUserVerified w.tracker u || membershipSatisfied cfg env u) = true →
          isRateLimited cfg nowCheck w.userRequests u = true →
          (afterLinkHandler binding cfg env nowCheck nowUpdate u matched w).userRequests
              = w.userRequests
            ∧ (afterLinkHandler binding cfg env nowCheck nowUpdate u matched w).trace
              = w.trace ++ authQueries cfg w.tracker u
                  ++ [Event.transport (.reply .waitBeforeNextRequest)])
      ∧ ((isUserVerified w.tracker u || membershipSatisfied cfg env u) = true →
          isRateLimited cfg nowCheck w.userRequests u = false →
          (afterLinkHandler binding cfg env nowCheck nowUpdate u matched w).userRequests
              = updateRateLimit cfg nowUpdate w.userRequests u
            ∧ (afterLinkHandler binding cfg env nowCheck nowUpdate u matched w).userRequests u
              = some (((w.userRequests u).getD [] ++ [nowUpdate]).filter
                  (within cfg.rateLimit.timeWindow nowUpdate))
            ∧ (0 < cfg.rateLimit.timeWindow →
                (afterLinkHandler binding cfg env nowCheck nowUpdate u matched w).userRequests u
                  = some (((w.userRequests u).getD []).filter
                      (within cfg.rateLimit.timeWindow nowUpdate) ++ [nowUpdate]))
            ∧ (∀ v, v ≠ u →
                (afterLinkHandler binding cfg env nowCheck nowUpdate u matched w).userRequests v
                  = w.userRequests v)
            ∧ ∃ ev,
                (afterLinkHandler binding cfg env nowCheck nowUpdate u matched w).trace
                  = w.trace ++ authQueries cfg w.tracker u
                      ++ [Event.transport (.reply .processing)] ++ ev) := by
  have hrun := handleTeraboxLink_run binding cfg env nowCheck nowUpdate u matched w
  unfold afterLinkHandler
  refine ⟨?_, ?_, ?_⟩
  · intro h
    rw [hrun.1 h]
    exact ⟨rfl, by simp [World.after]⟩
  · intro h hlim
    rw [(hrun.2 h).1 hlim]
    exact ⟨rfl, by simp [World.after, World.afterAuth]⟩
  · intro h hlim
    obtain ⟨ev, hp⟩ := (hrun.2 h).2.2 hlim hlink
    have hstore : (handleTeraboxLink binding cfg env nowCheck nowUpdate u matched w).2.userRequests
        = updateRateLimit cfg nowUpdate w.userRequests u := by
      rw [hp.userRequests]; rfl
    refine ⟨hstore, ?_, ?_, ?_, ev, ?_⟩
    · rw [hstore, updateRateLimit_self]
    · intro hW
      rw [hstore, updateRateLimit_self, List.filter_append]
      simp [within_self nowUpdate hW]
    · intro v hv
      rw [hstore, updateRateLimit_other _ _ _ _ _ hv]
    · rw [hp.trace]
      simp [World.afterAdmission, World.afterAuth]

/-- C1 on an admitted request: user 7, verified, with an empty history, sends one link at
time 5000; the history becomes `[5000]`. -/
theorem admission_gate_outcome_witness :
    (afterLinkHandler linkHandlerConfigBinding (config sampleEnv) sampleCollaborators
        5000 5000 7 ["https://terabox.com/s/abc"] worldWithVerifiedUser).userRequests
        = updateRateLimit (config sampleEnv) 5000 worldWithVerifiedUser.userRequests 7
      ∧ (afterLinkHandler linkHandlerConfigBinding (config sampleEnv) sampleCollaborators
          5000 5000 7 ["https://terabox.com/s/abc"] worldWithVerifiedUser).userRequests 7
        = some [5000] := by
  have h := (admission_gate_outcome linkHandlerConfigBinding (config sampleEnv)
    sampleCollaborators 5000 5000 7 ["https://terabox.com/s/abc"] worldWithVerifiedUser
    (by simp)).2.2 (by rfl) (by rfl)
  exact ⟨h.1, by rw [h.2.1]; rfl⟩

/-! ## Charging failed verifications -/

theorem verifyUserMembership_world (cfg : Config) (env : Collaborators) (u : UserId)
    (w : World) :
    (verifyUserMembership cfg env u w).2 = w.after (membershipQueries cfg u) := by
  rw [verifyUserMembership_run]; rfl

/-- The `verify` command on a failed verification whose progress and result messages
went out: the tracker is the one `incrementVerificationAttempts` returns. -/
theorem verifyCommand_failed (cfg : Config) (env : Collaborators)
    (nowCheck nowRead nowAttempt : Nat) (u : UserId) (w : World)
    (hfail : membershipSatisfied cfg env u = false)
    (hcool : isUserInCooldown nowCheck w.tracker u = false)
    (hsent : env.transportFails w.trace.length = false)
    (hedit : env.transportFails (w.trace.length + 1 + cfg.privateChannels.length) = false) :
    (verifyCommand cfg env nowCheck nowRead nowAttempt u w).2.tracker
      = incrementVerificationAttempts cfg nowAttempt w.tracker u := by
  have hloop : allRequiredJoinedLoop cfg
      (cfg.privateChannels.foldl (fun acc ch => acc.set ch.id (reportsJoined env u ch.id)) [])
        = false := by
    rw [allRequiredJoinedLoop_eq, allRequiredJoinedOf_queried, hfail]
  simp only [verifyCommand, run_bind, Act.world, hcool, transport_run, hsent, Act.tryCatch,
    verifyUserMembership_run, World.after, List.length_append, List.length_map,
    List.length_singleton, hedit, hloop, Act.modifyTracker, sendChannelJoinButtons,
    Bool.false_eq_true, if_false]
  split
  · rename_i heq
    rw [← (Prod.mk.inj heq).2]
  · rename_i heq
    rw [← (Prod.mk.inj heq).2]

/-- The `check_membership` action on a failed verification whose progress answer went out:
the tracker is the one `incrementVerificationAttempts` returns. -/
theorem checkMembershipAction_failed (cfg : Config) (env : Collaborators)
    (nowCheck nowRead nowAttempt : Nat) (u : UserId) (w : World)
    (hfail : membershipSatisfied cfg env u = false)
    (hcool : isUserInCooldown nowCheck w.tracker u = false)
    (hsent : env.transportFails w.trace.length = false) :
    (checkMembershipAction cfg env nowCheck nowRead nowAttempt u w).2.tracker
      = incrementVerificationAttempts cfg nowAttempt w.tracker u := by
  have hall : allRequiredJoinedOf cfg
      (cfg.privateChannels.foldl (fun acc ch => acc.set ch.id (reportsJoined env u ch.id)) [])
        = false := by
    rw [allRequiredJoinedOf_queried, hfail]
  simp only [checkMembershipAction, run_bind, Act.world, hcool, transport_run, hsent,
    verifyUserMembership_run, World.after, hall, Act.modifyTracker, sendChannelJoinButtons,
    Bool.false_eq_true, if_false]
  split
  · rename_i heq
    rw [← (Prod.mk.inj heq).2]
  · rename_i heq
    rw [← (Prod.mk.inj heq).2]

/-- C6 as amended (failed verifications are charged by the two verification handlers).
Let the membership query leave a required channel unjoined.  A run of the `verify`
command that is not stopped by the cooldown and whose progress and result messages go
out, and a run of the `check_membership` action that is not stopped by the cooldown and
whose progress answer goes out, each increment the user's `failedAttempts` by exactly 1
and set the cooldown end to `now + cooldownTime` exactly when the new count is at least
`maxAttempts` (leaving it unchanged otherwise).  The on-demand check of `checkAuth`
answers `success: false` and does not charge: the attempts and cooldowns are
unchanged. -/
theorem failed_verify_charged (cfg : Config) (env : Collaborators)
    (nowCheck nowRead nowAttempt : Nat) (u : UserId) (w : World)
    (hfail : membershipSatisfied cfg env u = false) :
    (isUserInCooldown nowCheck w.tracker u = false →
        env.transportFails w.trace.length = false →
        env.transportFails (w.trace.length + 1 + cfg.privateChannels.length) = false →
        failedAttempts (verifyCommand cfg env nowCheck nowRead nowAttempt u w).2.tracker u
            = failedAttempts w.tracker u + 1
          ∧ (verifyCommand cfg env nowCheck nowRead nowAttempt u w).2.tracker.verificationCooldowns u
            = if cfg.verification.maxAttempts ≤ failedAttempts w.tracker u + 1
              then some ((nowAttempt : Int) + cfg.verification.cooldownTime)
              else w.tracker.verificationCooldowns u)
      ∧ (isUserInCooldown nowCheck w.tracker u = false →
          env.transportFails w.trace.length = false →
          failedAttempts
              (checkMembershipAction cfg env nowCheck nowRead nowAttempt u w).2.tracker u
              = failedAttempts w.tracker u + 1
            ∧ (checkMembershipAction cfg env nowCheck nowRead nowAttempt u
                w).2.tracker.verificationCooldowns u
              = if cfg.verification.maxAttempts ≤ failedAttempts w.tracker u + 1
                then some ((nowAttempt : Int) + cfg.verification.cooldownTime)
                else w.tracker.verificationCooldowns u)
      ∧ (isUserVerified w.tracker u = false →
          (checkAuth cfg env u w).1 = .ok false
            ∧ (checkAuth cfg env u w).2.tracker = w.tracker) := by
  refine ⟨?_, ?_, ?_⟩
  · intro hcool hsent hedit
    rw [verifyCommand_failed cfg env nowCheck nowRead nowAttempt u w hfail hcool hsent hedit]
    exact ⟨incrementVerificationAttempts_attempts cfg nowAttempt w.tracker u,
      incrementVerificationAttempts_cooldown cfg nowAttempt w.tracker u⟩
  · intro hcool hsent
    rw [checkMembershipAction_failed cfg env nowCheck nowRead nowAttempt u w hfail hcool hsent]
    exact ⟨incrementVerificationAttempts_attempts cfg nowAttempt w.tracker u,
      incrementVerificationAttempts_cooldown cfg nowAttempt w.tracker u⟩
  · intro hv
    rw [checkAuth_run]
    simp [hv, hfail, World.after]

/-- C6 as amended, for user 8 of the sample collaborators (a required channel is
unjoined), from the initial world at time 1000: both handlers leave one failed attempt. -/
theorem failed_verify_charged_witness :
    failedAttempts
        (verifyCommand (config sampleEnv) sampleCollaborators 1000 1000 1000 8
          World.initial).2.tracker 8 = 1
      ∧ failedAttempts
        (checkMembershipAction (config sampleEnv) sampleCollaborators 1000 1000 1000 8
          World.initial).2.tracker 8 = 1
      ∧ (checkAuth (config sampleEnv) sampleCollaborators 8 World.initial).2.tracker
        = World.initial.tracker := by
  have h := failed_verify_charged (config sampleEnv) sampleCollaborators 1000 1000 1000 8
    World.initial (by rfl)
  exact ⟨(h.1 (by rfl) (by rfl) (by rfl)).1, (h.2.1 (by rfl) (by rfl)).1,
    (h.2.2 (by rfl)).2⟩

/-- C6 as stated fails for `checkAuth`.  User 8 is not verified and the on-demand
membership query leaves a required channel unjoined, so `checkAuth` answers
`success: false`; but the user's `failedAttempts` is still 0, not 1, and no cooldown is
recorded. -/
theorem failed_verify_charged_counterexample :
    isUserVerified World.initial.tracker 8 = false
      ∧ membershipSatisfied (config sampleEnv) sampleCollaborators 8 = false
      ∧ (checkAuth (config sampleEnv) sampleCollaborators 8 World.initial).1 = .ok false
      ∧ ¬ (failedAttempts (checkAuth (config sampleEnv) sampleCollaborators 8
              World.initial).2.tracker 8
            = failedAttempts World.initial.tracker 8 + 1) := by
  refine ⟨by rfl, by rfl, by rfl, ?_⟩
  have h : failedAttempts (checkAuth (config sampleEnv) sampleCollaborators 8
      World.initial).2.tracker 8 = 0 := by rfl
  rw [h]
  decide

/-! ## Cleanup of temp files -/

theorem membershipQueries_count (cfg : Config) (u : UserId) (e : Event)
    (h : ∀ ch, e ≠ Event.getChatMember ch u) : (membershipQueries cfg u).count e = 0 := by
  rw [List.count_eq_zero]
  intro hmem
  obtain ⟨ch, _, hch⟩ := List.mem_map.mp hmem
  exact h ch.id hch.symm

theorem authQueries_count (cfg : Config) (t : Tracker) (u : UserId) (e : Event)
    (h : ∀ ch, e ≠ Event.getChatMember ch u) : (authQueries cfg t u).count e = 0 := by
  unfold authQueries
  split
  · simp
  · exact membershipQueries_count cfg u e h

/-- Over a whole run of `handleTeraboxLink`: creations and removals balance on every
path, and no created path holds a file at the end. -/
theorem handleTeraboxLink_cleans (binding : Option Config) (cfg : Config) (env : Collaborators)
    (nowCheck nowUpdate : Nat) (u : UserId) (matched : List String) (w : World) :
    ∃ ev, (afterLinkHandler binding cfg env nowCheck nowUpdate u matched w).trace = w.trace ++ ev
      ∧ (∀ q, ev.count (Event.unlinked q) = ev.count (Event.created q))
      ∧ (∀ q, Event.created q ∈ ev →
          (afterLinkHandler binding cfg env nowCheck nowUpdate u matched w).fs q = none) := by
  have hrun := handleTeraboxLink_run binding cfg env nowCheck nowUpdate u matched w
  have hc : ∀ q, (authQueries cfg w.tracker u).count (Event.created q) = 0 :=
    fun q => authQueries_count cfg w.tracker u _ (by intro ch h; cases h)
  have hu : ∀ q, (authQueries cfg w.tracker u).count (Event.unlinked q) = 0 :=
    fun q => authQueries_count cfg w.tracker u _ (by intro ch h; cases h)
  have hmc : ∀ q, (membershipQueries cfg u).count (Event.created q) = 0 :=
    fun q => membershipQueries_count cfg u _ (by intro ch h; cases h)
  have hmu : ∀ q, (membershipQueries cfg u).count (Event.unlinked q) = 0 :=
    fun q => membershipQueries_count cfg u _ (by intro ch h; cases h)
  have hdenied : ∀ (pre : List Event) (call : TransportCall) (w1 : World),
      (∀ q, pre.count (Event.created q) = 0) → (∀ q, pre.count (Event.unlinked q) = 0) →
      w1.trace = w.trace ++ pre →
      ∃ ev, (w1.after [Event.transport call]).trace = w.trace ++ ev
        ∧ (∀ q, ev.count (Event.unlinked q) = ev.count (Event.created q))
        ∧ (∀ q, Event.created q ∈ ev → (w1.after [Event.transport call]).fs q = none) := by
    intro pre call w1 h1 h2 h3
    refine ⟨pre ++ [Event.transport call], by simp [World.after, h3], ?_, ?_⟩
    · intro q; simp [List.count_append, h1 q, h2 q, List.count_cons]
    · intro q hq
      have : (pre ++ [Event.transport call]).count (Event.created q) = 0 := by
        simp [List.count_append, h1 q, List.count_cons]
      exact absurd hq (List.count_eq_zero.mp this)
  unfold afterLinkHandler
  cases h : (isUserVerified w.tracker u || membershipSatisfied cfg env u)
  · rw [hrun.1 h]
    exact hdenied _ _ _ hmc hmu rfl
  · cases hlim : isRateLimited cfg nowCheck w.userRequests u
    · by_cases hmatched : matched = []
      · rw [(hrun.2 h).2.1 hlim hmatched]
        exact hdenied _ _ _ hc hu rfl
      · obtain ⟨ev, hp⟩ := (hrun.2 h).2.2 hlim hmatched
        refine ⟨authQueries cfg w.tracker u ++ ([Event.transport (.reply .processing)] ++ ev),
          ?_, ?_, ?_⟩
        · rw [hp.trace]; simp [World.afterAdmission, World.afterAuth]
        · intro q
          simp only [List.count_append, hc q, hu q, hp.balanced q]
        · intro q hq
          rcases List.mem_append.mp hq with h1 | h1
          · exact absurd h1 (List.count_eq_zero.mp (hc q))
          · exact hp.removed q h1
    · rw [(hrun.2 h).1 hlim]
      exact hdenied _ _ _ hc hu rfl

/-- C9 (guaranteed temp cleanup).  (1) `sendFileToUser` on an existing artifact `p`,
whatever the size and whatever the transport calls do (delivery succeeds, the file is
rejected as too large, the delivery or a reply throws): afterwards `p` does not exist
and the events of the call contain exactly one successful unlink of `p`.  (2) One link
job of `handleTeraboxLink` (the loop body), whether it ends normally or throws: a path
created by its `downloadFile` does not exist afterwards and was unlinked exactly once in
the job.  (3) A whole run of `handleTeraboxLink`, whether it returns or throws: no path
created during the run exists at the end, and every path has as many successful unlinks
as creations.  All three hold for every binding of `config` in `linkHandler.js`. -/
theorem temp_cleanup (binding : Option Config) (cfg : Config) (env : Collaborators) :
    (∀ (p : String) (info : FileInfo) (w : World) (size : Nat), w.fs p = some size →
        ∃ ev, (sendFileToUser cfg env p info w).2.trace = w.trace ++ ev
          ∧ (sendFileToUser cfg env p info w).2.fs p = none
          ∧ ev.count (Event.unlinked p) = 1)
      ∧ (∀ (link : String) (w : World),
          ∃ ev, (processLink binding cfg env link w).2.trace = w.trace ++ ev
            ∧ ∀ p, Event.created p ∈ ev →
                (processLink binding cfg env link w).2.fs p = none
                  ∧ ev.count (Event.unlinked p) = 1)
      ∧ (∀ (nowCheck nowUpdate : Nat) (u : UserId) (matched : List String) (w : World),
          ∃ ev, (afterLinkHandler binding cfg env nowCheck nowUpdate u matched w).trace
              = w.trace ++ ev
            ∧ ∀ p, Event.created p ∈ ev →
                (afterLinkHandler binding cfg env nowCheck nowUpdate u matched w).fs p = none
                  ∧ ev.count (Event.unlinked p) = ev.count (Event.created p)) := by
  refine ⟨?_, ?_, ?_⟩
  · intro p info w size hfile
    obtain ⟨r, ev, hrun, h1, _, _⟩ := sendFileToUser_cleans cfg env p info w size hfile
    rw [hrun]
    exact ⟨ev, rfl, by simp [FileSystem.remove], h1⟩
  · intro link w
    obtain ⟨ev, hp, hc⟩ := processLink_processed binding cfg env link w
    refine ⟨ev, hp.trace, ?_⟩
    intro p hmem
    refine ⟨hp.removed p hmem, ?_⟩
    have hpos : 0 < ev.count (Event.created p) := List.count_pos_iff.mpr hmem
    have := hc p
    have := hp.balanced p
    omega
  · intro nowCheck nowUpdate u matched w
    obtain ⟨ev, htrace, hbal, hrem⟩ :=
      handleTeraboxLink_cleans binding cfg env nowCheck nowUpdate u matched w
    exact ⟨ev, htrace, fun p hmem => ⟨hrem p hmem, hbal p⟩⟩

/-- C9 on a run with `config` bound in `linkHandler.js`, where the delivery throws: user 7
sends a folder link; the zip is created, the delivery (event number 4) throws, the file
is unlinked once in the `catch` block, and it does not exist at the end. -/
theorem temp_cleanup_witness :
    (∃ ev, (afterLinkHandler (some (config sampleEnv)) (config sampleEnv)
          deliveryFailingCollaborators 5000 5000 7 ["https://terabox.com/s/abc"]
          worldWithVerifiedUser).trace = worldWithVerifiedUser.trace ++ ev
        ∧ ∀ p, Event.created p ∈ ev →
            (afterLinkHandler (some (config sampleEnv)) (config sampleEnv)
              deliveryFailingCollaborators 5000 5000 7 ["https://terabox.com/s/abc"]
              worldWithVerifiedUser).fs p = none
              ∧ ev.count (Event.unlinked p) = ev.count (Event.created p))
      ∧ (afterLinkHandler (some (config sampleEnv)) (config sampleEnv)
          deliveryFailingCollaborators 5000 5000 7 ["https://terabox.com/s/abc"]
          worldWithVerifiedUser).trace
        = [Event.transport (.reply .processing),
           Event.getFileInfo "https://terabox.com/s/abc",
           Event.downloadFile "https://terabox.com/s/abc",
           Event.created "/tmp/terabox_downloads/terabox_1700000000000_ab12cd.zip",
           Event.transport
            (.replyWithDocument "/tmp/terabox_downloads/terabox_1700000000000_ab12cd.zip"),
           Event.unlinked "/tmp/terabox_downloads/terabox_1700000000000_ab12cd.zip",
           Event.transport (.reply .errorSending),
           Event.transport (.editMessageText .allProcessed)]
      ∧ (afterLinkHandler (some (config sampleEnv)) (config sampleEnv)
          deliveryFailingCollaborators 5000 5000 7 ["https://terabox.com/s/abc"]
          worldWithVerifiedUser).fs "/tmp/terabox_downloads/terabox_1700000000000_ab12cd.zip"
        = none :=
  ⟨(temp_cleanup (some (config sampleEnv)) (config sampleEnv)
      deliveryFailingCollaborators).2.2 5000 5000 7 ["https://terabox.com/s/abc"]
      worldWithVerifiedUser,
   by rfl, by rfl⟩

/-! ## Partial failure -/

/-- C10 at a failing input.  User 7, verified and not rate limited, sends two links.
In `linkHandler.js` as written (`config` unbound) the size check of the first link that
resolves throws a `ReferenceError`; the outer `catch` reports a general error, nothing is
downloaded or delivered, and `getFileInfo` is never called on the second link.  This
is so (1) with `getFileInfo` as written, for two folder links that both resolve, and
(2) when the second link fails to resolve.  (3) With `config` bound to the
configuration, the request of (2) gives one delivery and one reported resolve
failure. -/
theorem partial_failure_failing_input :
    (handleTeraboxLink linkHandlerConfigBinding (config sampleEnv) sampleCollaborators
        5000 5000 7 ["https://terabox.com/s/abc", "https://terabox.com/s/def"]
        worldWithVerifiedUser).2.trace
        = [Event.transport (.reply .processing),
           Event.getFileInfo "https://terabox.com/s/abc",
           Event.transport (.editMessageText .errorProcessing)]
      ∧ (handleTeraboxLink linkHandlerConfigBinding (config sampleEnv)
          secondLinkFailingCollaborators 5000 5000 7
          ["https://terabox.com/s/abc", "https://terabox.com/gone"]
          worldWithVerifiedUser).2.trace
        = [Event.transport (.reply .processing),
           Event.getFileInfo "https://terabox.com/s/abc",
           Event.transport (.editMessageText .errorProcessing)]
      ∧ (handleTeraboxLink (some (config sampleEnv)) (config sampleEnv)
          secondLinkFailingCollaborators 5000 5000 7
          ["https://terabox.com/s/abc", "https://terabox.com/gone"]
          worldWithVerifiedUser).2.trace
        = [Event.transport (.reply .processing),
           Event.getFileInfo "https://terabox.com/s/abc",
           Event.downloadFile "https://terabox.com/s/abc",
           Event.created "/tmp/terabox_downloads/terabox_1700000000000_ab12cd.zip",
           Event.transport
            (.replyWithDocument "/tmp/terabox_downloads/terabox_1700000000000_ab12cd.zip"),
           Event.unlinked "/tmp/terabox_downloads/terabox_1700000000000_ab12cd.zip",
           Event.getFileInfo "https://terabox.com/gone",
           Event.transport (.reply (.failedToProcess "https://terabox.com/gone"
            "Failed to get file information")),
           Event.transport (.editMessageText .allProcessed)] :=
  ⟨by rfl, by rfl, by rfl⟩

/-! ## Garbage collection of the rate limiter -/

theorem within_double (window : Int) (now t : Nat) :
    within (window * 2) now t = decide ((now : Int) - (t : Int) < 2 * window) := by
  simp only [within, mul_comm]

/-- C11 (rate-limiter GC).  After `cleanupRateLimitData` run at `now`, for every store and
every user: the user is still tracked if and only if they were tracked before and their
history held a timestamp `t` with `now - t < 2 * timeWindow`; and the history of a user
who is still tracked is their previous history restricted to such timestamps, in the
same order, and is not empty. -/
theorem cleanup_keeps_recent (cfg : Config) (now : Nat) (r : RateStore) (u : UserId) :
    ((cleanupRateLimitData cfg now r u).isSome = true
        ↔ ∃ ts, r u = some ts
            ∧ ∃ t ∈ ts, (now : Int) - (t : Int) < 2 * cfg.rateLimit.timeWindow)
      ∧ (∀ kept, cleanupRateLimitData cfg now r u = some kept →
          kept ≠ []
            ∧ ∃ ts, r u = some ts
                ∧ kept = ts.filter
                    (fun t : Nat => decide ((now : Int) - (t : Int) < 2 * cfg.rateLimit.timeWindow))) := by
  have hfun : within (cfg.rateLimit.timeWindow * 2) now
      = fun t : Nat => decide ((now : Int) - (t : Int) < 2 * cfg.rateLimit.timeWindow) :=
    funext (within_double cfg.rateLimit.timeWindow now)
  cases hr : r u with
  | none => simp [cleanupRateLimitData, hr]
  | some ts =>
    by_cases hl : (ts.filter (within (cfg.rateLimit.timeWindow * 2) now)).length = 0
    · have hnil := List.length_eq_zero.mp hl
      have hnone : ∀ t ∈ ts, ¬ ((now : Int) - (t : Int) < 2 * cfg.rateLimit.timeWindow) := by
        intro t ht hlt
        have hmem : t ∈ ts.filter (within (cfg.rateLimit.timeWindow * 2) now) :=
          List.mem_filter.mpr ⟨ht, by rw [within_double]; exact decide_eq_true hlt⟩
        rw [hnil] at hmem
        exact List.not_mem_nil _ hmem
      constructor
      · simp only [cleanupRateLimitData, hr, hl, if_true, Option.isSome_none,
          Bool.false_eq_true, false_iff]
        rintro ⟨ts1, h1, t, ht, hlt⟩
        cases h1
        exact hnone t ht hlt
      · intro kept hk
        simp only [cleanupRateLimitData, hr, hl, if_true] at hk
        cases hk
    · have hne : ts.filter (within (cfg.rateLimit.timeWindow * 2) now) ≠ [] :=
        fun h => hl (by rw [h]; rfl)
      constructor
      · simp only [cleanupRateLimitData, hr, hl, if_false, Option.isSome_some, true_iff]
        obtain ⟨t, ht⟩ := List.exists_mem_of_ne_nil _ hne
        have h1 := List.mem_filter.mp ht
        refine ⟨ts, rfl, t, h1.1, ?_⟩
        have h2 := h1.2
        rw [within_double] at h2
        exact of_decide_eq_true h2
      · intro kept hk
        simp only [cleanupRateLimitData, hr, hl, if_false, Option.some.injEq] at hk
        subst hk
        exact ⟨hne, ts, rfl, by rw [hfun]⟩

/-- C17 (the GC is invisible to admission).  For `timeWindow ≥ 0` and a cleanup run at a
time `now1 ≤ now`: the timestamps of a user inside the window ending at `now` are the
same, in the same order, before and after the run, and so `isRateLimited` evaluated at
`now` returns the same value before and after. -/
theorem cleanup_invisible_to_admission (cfg : Config) (r : RateStore) (u : UserId)
    (now now1 : Nat) (hW : 0 ≤ cfg.rateLimit.timeWindow) (hle : now1 ≤ now) :
    ((cleanupRateLimitData cfg now1 r u).getD []).filter
          (fun t : Nat => decide ((now : Int) - (t : Int) < cfg.rateLimit.timeWindow))
        = ((r u).getD []).filter
          (fun t : Nat => decide ((now : Int) - (t : Int) < cfg.rateLimit.timeWindow))
      ∧ isRateLimited cfg now (cleanupRateLimitData cfg now1 r) u = isRateLimited cfg now r u := by
  have key : ((cleanupRateLimitData cfg now1 r u).getD []).filter
      (within cfg.rateLimit.timeWindow now)
        = ((r u).getD []).filter (within cfg.rateLimit.timeWindow now) := by
    rw [cleanupRateLimitData_getD, List.filter_filter]
    apply List.filter_congr
    intro t _
    cases h1 : within cfg.rateLimit.timeWindow now t
    · simp
    · simp only [within, decide_eq_true_eq] at h1 ⊢
      simp only [Bool.true_and, decide_eq_true_eq]
      omega
  refine ⟨key, ?_⟩
  rw [isRateLimited_eq, isRateLimited_eq, key]

/-- C17 at the shipped limits: user 7 has requests at 1000, 50000, 100000 and 130000; a
cleanup at 125000 drops the first, and at 130000 the window holds the same two requests
before and after. -/
theorem cleanup_invisible_to_admission_witness :
    (((cleanupRateLimitData (config sampleEnv) 125000
          (JsMap.set JsMap.empty 7 [1000, 50000, 100000, 130000]) 7).getD []).filter
          (fun t : Nat => decide (((130000 : Nat) : Int) - (t : Int)
            < (config sampleEnv).rateLimit.timeWindow))
        = (((JsMap.set JsMap.empty 7 [1000, 50000, 100000, 130000] : RateStore) 7).getD []).filter
          (fun t : Nat => decide (((130000 : Nat) : Int) - (t : Int)
            < (config sampleEnv).rateLimit.timeWindow))
      ∧ isRateLimited (config sampleEnv) 130000
          (cleanupRateLimitData (config sampleEnv) 125000
            (JsMap.set JsMap.empty 7 [1000, 50000, 100000, 130000])) 7
        = isRateLimited (config sampleEnv) 130000
            (JsMap.set JsMap.empty 7 [1000, 50000, 100000, 130000]) 7)
      ∧ cleanupRateLimitData (config sampleEnv) 125000
          (JsMap.set JsMap.empty 7 [1000, 50000, 100000, 130000]) 7
        = some [50000, 100000, 130000] :=
  ⟨cleanup_invisible_to_admission (config sampleEnv)
      (JsMap.set JsMap.empty 7 [1000, 50000, 100000, 130000]) 7 130000 125000
      (by decide) (by decide),
   by decide⟩

/-- C11 on a store: at 200000 the user 7 keeps the two requests younger than 120000 ms
and user 8, whose only request is older, is no longer tracked. -/
theorem cleanup_keeps_recent_witness :
    (∀ kept, cleanupRateLimitData (config sampleEnv) 200000
          (JsMap.set (JsMap.set JsMap.empty 8 [1000]) 7 [1000, 90000, 150000]) 7 = some kept →
        kept ≠ []
          ∧ ∃ ts, (JsMap.set (JsMap.set JsMap.empty 8 [1000]) 7 [1000, 90000, 150000] : RateStore) 7
                = some ts
              ∧ kept = ts.filter
                  (fun t : Nat => decide (((200000 : Nat) : Int) - (t : Int)
                    < 2 * (config sampleEnv).rateLimit.timeWindow)))
      ∧ cleanupRateLimitData (config sampleEnv) 200000
          (JsMap.set (JsMap.set JsMap.empty 8 [1000]) 7 [1000, 90000, 150000]) 7
        = some [90000, 150000]
      ∧ cleanupRateLimitData (config sampleEnv) 200000
          (JsMap.set (JsMap.set JsMap.empty 8 [1000]) 7 [1000, 90000, 150000]) 8 = none :=
  ⟨(cleanup_keeps_recent (config sampleEnv) 200000
      (JsMap.set (JsMap.set JsMap.empty 8 [1000]) 7 [1000, 90000, 150000]) 7).2,
   by decide, by decide⟩

/-! ## Reached states of the verification record -/

theorem trackerInv_initial (cfg : Config) : TrackerInv cfg Tracker.initial where
  counted := by intro u n h; simp [Tracker.initial, JsMap.empty] at h
  atMaximum := by intro u e h; simp [Tracker.initial, JsMap.empty] at h

theorem incrementVerificationAttempts_attempts_other (cfg : Config) (now : Nat) (t : Tracker)
    (u v : UserId) (h : v ≠ u) :
    (incrementVerificationAttempts cfg now t u).verificationAttempts v
      = t.verificationAttempts v := by
  unfold incrementVerificationAttempts
  simp only []
  split <;> simp [setUserCooldown, JsMap.set, h]

theorem incrementVerificationAttempts_attempts_self (cfg : Config) (now : Nat) (t : Tracker)
    (u : UserId) :
    (incrementVerificationAttempts cfg now t u).verificationAttempts u
      = some (failedAttempts t u + 1) := by
  unfold incrementVerificationAttempts
  simp only []
  split <;> simp [setUserCooldown, JsMap.set]

theorem incrementVerificationAttempts_cooldown_other (cfg : Config) (now : Nat) (t : Tracker)
    (u v : UserId) (h : v ≠ u) :
    (incrementVerificationAttempts cfg now t u).verificationCooldowns v
      = t.verificationCooldowns v := by
  unfold incrementVerificationAttempts
  simp only []
  split <;> simp [setUserCooldown, JsMap.set, h]

theorem TrackerInv.step {cfg : Config} {t : Tracker} (inv : TrackerInv cfg t)
    (op : TrackerOp) : TrackerInv cfg (op.apply cfg t) := by
  cases op with
  | addVerifiedUser u =>
    constructor
    · intro v n h
      by_cases hv : v = u
      · subst hv; simp [TrackerOp.apply, addVerifiedUser, JsMap.delete] at h
      · exact inv.counted v n (by simpa [TrackerOp.apply, addVerifiedUser, JsMap.delete, hv] using h)
    · intro v e h
      by_cases hv : v = u
      · subst hv; simp [TrackerOp.apply, addVerifiedUser, JsMap.delete] at h
      · have := inv.atMaximum v e
          (by simpa [TrackerOp.apply, addVerifiedUser, JsMap.delete, hv] using h)
        simpa [TrackerOp.apply, addVerifiedUser, failedAttempts, JsMap.delete, hv] using this
  | incrementVerificationAttempts u now =>
    constructor
    · intro v n h
      by_cases hv : v = u
      · subst hv
        simp only [TrackerOp.apply, incrementVerificationAttempts_attempts_self,
          Option.some.injEq] at h
        omega
      · simp only [TrackerOp.apply,
          incrementVerificationAttempts_attempts_other _ _ _ _ _ hv] at h
        exact inv.counted v n h
    · intro v e h
      by_cases hv : v = u
      · subst hv
        simp only [TrackerOp.apply, incrementVerificationAttempts_cooldown] at h
        simp only [TrackerOp.apply, incrementVerificationAttempts_attempts]
        by_cases hmax : cfg.verification.maxAttempts ≤ failedAttempts t v + 1
        · exact hmax
        · rw [if_neg hmax] at h
          have := inv.atMaximum v e h
          omega
      · simp only [TrackerOp.apply,
          incrementVerificationAttempts_cooldown_other _ _ _ _ _ hv] at h
        have := inv.atMaximum v e h
        simpa [TrackerOp.apply, failedAttempts,
          incrementVerificationAttempts_attempts_other _ _ _ _ _ hv] using this
  | demote u => exact ⟨inv.counted, inv.atMaximum⟩

theorem trackerInv_reached (cfg : Config) (ops : List TrackerOp) :
    TrackerInv cfg (Tracker.reached cfg ops) := by
  have h : ∀ (ops : List TrackerOp) (t : Tracker), TrackerInv cfg t →
      TrackerInv cfg (ops.foldl (TrackerOp.apply cfg) t) := by
    intro ops
    induction ops with
    | nil => intro t inv; exact inv
    | cons op rest ih => intro t inv; exact ih _ (inv.step op)
  exact h ops _ (trackerInv_initial cfg)

/-- C12 (cooldown only at the maximum).  In every state reached from the empty initial
state by any sequence of `addVerifiedUser`, `incrementVerificationAttempts` and sweeper
demotions, for every user: if a cooldown end is recorded for the user then the user's
`failedAttempts` is at least `maxAttempts`; and any recorded `failedAttempts` is at
least 1. -/
theorem cooldown_only_at_maximum (cfg : Config) (ops : List TrackerOp) (u : UserId) :
    (∀ e, (Tracker.reached cfg ops).verificationCooldowns u = some e →
        cfg.verification.maxAttempts ≤ failedAttempts (Tracker.reached cfg ops) u)
      ∧ (∀ n, (Tracker.reached cfg ops).verificationAttempts u = some n → 1 ≤ n) :=
  ⟨(trackerInv_reached cfg ops).atMaximum u, (trackerInv_reached cfg ops).counted u⟩

/-- C12 on a history at the shipped settings: user 7 fails once, is verified, is demoted
and fails three more times; the cooldown recorded at the last failure comes with three
failed attempts. -/
theorem cooldown_only_at_maximum_witness :
    (Tracker.reached (config sampleEnv)
        [.incrementVerificationAttempts 7 10, .addVerifiedUser 7, .demote 7,
         .incrementVerificationAttempts 7 20, .incrementVerificationAttempts 7 30,
         .incrementVerificationAttempts 7 40]).verificationCooldowns 7 = some 300040
      ∧ (config sampleEnv).verification.maxAttempts
          ≤ failedAttempts (Tracker.reached (config sampleEnv)
              [.incrementVerificationAttempts 7 10, .addVerifiedUser 7, .demote 7,
               .incrementVerificationAttempts 7 20, .incrementVerificationAttempts 7 30,
               .incrementVerificationAttempts 7 40]) 7 :=
  ⟨by decide,
   (cooldown_only_at_maximum (config sampleEnv)
      [.incrementVerificationAttempts 7 10, .addVerifiedUser 7, .demote 7,
       .incrementVerificationAttempts 7 20, .incrementVerificationAttempts 7 30,
       .incrementVerificationAttempts 7 40] 7).1 300040 (by decide)⟩

/-! ## The cooldown is checked before any query -/

theorem cooldownsSetBy_reached (cfg : Config) (c : Nat) (ops : List TrackerOp)
    (hclock : ∀ op ∈ ops, op.notAfter c) : CooldownsSetBy cfg c (Tracker.reached cfg ops) := by
  have hstep : ∀ (t : Tracker) (op : TrackerOp), CooldownsSetBy cfg c t → op.notAfter c →
      CooldownsSetBy cfg c (op.apply cfg t) := by
    intro t op inv hop
    cases op with
    | addVerifiedUser u =>
      intro v e h
      by_cases hv : v = u
      · subst hv; simp [TrackerOp.apply, addVerifiedUser, JsMap.delete] at h
      · exact inv v e (by simpa [TrackerOp.apply, addVerifiedUser, JsMap.delete, hv] using h)
    | incrementVerificationAttempts u now =>
      intro v e h
      by_cases hv : v = u
      · subst hv
        simp only [TrackerOp.apply, incrementVerificationAttempts_cooldown] at h
        by_cases hmax : cfg.verification.maxAttempts ≤ failedAttempts t v + 1
        · rw [if_pos hmax] at h
          exact ⟨now, hop, (Option.some.inj h).symm⟩
        · rw [if_neg hmax] at h
          exact inv v e h
      · simp only [TrackerOp.apply,
          incrementVerificationAttempts_cooldown_other _ _ _ _ _ hv] at h
        exact inv v e h
    | demote u => exact inv
  have h : ∀ (ops : List TrackerOp) (t : Tracker), CooldownsSetBy cfg c t →
      (∀ op ∈ ops, op.notAfter c) →
      CooldownsSetBy cfg c (ops.foldl (TrackerOp.apply cfg) t) := by
    intro ops
    induction ops with
    | nil => intro t inv _; exact inv
    | cons op rest ih =>
      intro t inv hall
      exact ih _ (hstep t op inv (hall op (List.mem_cons_self _ _)))
        (fun o ho => hall o (List.mem_cons_of_mem _ ho))
  exact h ops _ (by intro u e he; simp [Tracker.initial, JsMap.empty] at he) hclock

theorem ceilDiv_pos {a : Int} (h : 0 < a) : 1 ≤ ceilDiv a 60000 := by
  unfold ceilDiv
  omega

theorem ceilDiv_mono {a b : Int} (h : a ≤ b) : ceilDiv a 60000 ≤ ceilDiv b 60000 := by
  unfold ceilDiv
  omega

/-- The `verify` command for a user in cooldown: one reply and nothing else. -/
theorem verifyCommand_inCooldown (cfg : Config) (env : Collaborators)
    (nowCheck nowRead nowAttempt : Nat) (u : UserId) (w : World)
    (hcheck : isUserInCooldown nowCheck w.tracker u = true) :
    (verifyCommand cfg env nowCheck nowRead nowAttempt u w).2
      = w.after [Event.transport (.reply (.waitBeforeVerify
          (ceilDiv (getCooldownTime nowRead w.tracker u) 60000)))] := by
  simp [verifyCommand, run_bind, Act.world, hcheck, transport_run]

/-- The `check_membership` action for a user in cooldown: one answer and nothing else. -/
theorem checkMembershipAction_inCooldown (cfg : Config) (env : Collaborators)
    (nowCheck nowRead nowAttempt : Nat) (u : UserId) (w : World)
    (hcheck : isUserInCooldown nowCheck w.tracker u = true) :
    (checkMembershipAction cfg env nowCheck nowRead nowAttempt u w).2
      = w.after [Event.transport (.answerCbQuery (.waitBeforeRetry
          (ceilDiv (getCooldownTime nowRead w.tracker u) 60000)))] := by
  simp [checkMembershipAction, run_bind, Act.world, hcheck, transport_run]

/-- C13 as amended (the cooldown is checked before any query).  Let the verification
state be one reached from the initial state by operations that read the clock no later
than the handler does, and let the user be in cooldown when the handler starts, that is,
at the clock reading `nowCheck` of `isUserInCooldown`.  Then the `verify` command and the
`check_membership` action each do exactly one thing: they send the wait message.  So
they issue no membership query and leave the verified set, the failed attempts and the
cooldowns unchanged.  The minutes in the message are `ceil(remaining / 60000)`, where
`remaining` is what `getCooldownTime` computes at its own clock reading `nowRead`; they
are at most `ceil(cooldownTime / 60000)`, and at least 1 whenever the user is still in
cooldown at `nowRead` (in particular when the two readings are equal). -/
theorem cooldown_checked_first (cfg : Config) (env : Collaborators) (ops : List TrackerOp)
    (nowCheck nowRead nowAttempt : Nat) (u : UserId) (w : World)
    (hreached : w.tracker = Tracker.reached cfg ops)
    (hclock : ∀ op ∈ ops, op.notAfter nowRead)
    (hcheck : isUserInCooldown nowCheck w.tracker u = true) :
    ∃ minutes : Int,
      (verifyCommand cfg env nowCheck nowRead nowAttempt u w).2
          = w.after [Event.transport (.reply (.waitBeforeVerify minutes))]
        ∧ (checkMembershipAction cfg env nowCheck nowRead nowAttempt u w).2
          = w.after [Event.transport (.answerCbQuery (.waitBeforeRetry minutes))]
        ∧ minutes = ceilDiv (getCooldownTime nowRead w.tracker u) 60000
        ∧ minutes ≤ ceilDiv cfg.verification.cooldownTime 60000
        ∧ (isUserInCooldown nowRead w.tracker u = true → 1 ≤ minutes) := by
  refine ⟨_, verifyCommand_inCooldown cfg env nowCheck nowRead nowAttempt u w hcheck,
    checkMembershipAction_inCooldown cfg env nowCheck nowRead nowAttempt u w hcheck, rfl, ?_, ?_⟩
  · apply ceilDiv_mono
    unfold getCooldownTime
    cases hc : w.tracker.verificationCooldowns u with
    | none =>
      unfold isUserInCooldown at hcheck
      simp [hc] at hcheck
    | some e =>
      have hset := cooldownsSetBy_reached cfg nowRead ops hclock u e (by rw [← hreached]; exact hc)
      obtain ⟨t0, ht0, he⟩ := hset
      unfold isUserInCooldown at hcheck
      simp only [hc, Bool.and_eq_true, decide_eq_true_eq] at hcheck
      simp only [hcheck.1, ne_eq, not_false_eq_true, if_true]
      omega
  · intro hread
    apply ceilDiv_pos
    unfold isUserInCooldown at hread
    unfold getCooldownTime
    cases hc : w.tracker.verificationCooldowns u with
    | none => simp [hc] at hread
    | some e =>
      simp only [hc, Bool.and_eq_true, decide_eq_true_eq] at hread
      simp only [hread.1, ne_eq, not_false_eq_true, if_true]
      omega

/-- C13 as amended, at the shipped settings: user 8 failed three times, the last at time
30, and asks again at time 1000; both handlers answer "5 minutes" and change nothing
else. -/
theorem cooldown_checked_first_witness :
    (∃ minutes : Int,
      (verifyCommand (config sampleEnv) sampleCollaborators 1000 1000 1000 8 worldInCooldown).2
          = worldInCooldown.after [Event.transport (.reply (.waitBeforeVerify minutes))]
        ∧ (checkMembershipAction (config sampleEnv) sampleCollaborators 1000 1000 1000 8
            worldInCooldown).2
          = worldInCooldown.after [Event.transport (.answerCbQuery (.waitBeforeRetry minutes))]
        ∧ minutes = ceilDiv (getCooldownTime 1000 worldInCooldown.tracker 8) 60000
        ∧ minutes ≤ ceilDiv (config sampleEnv).verification.cooldownTime 60000
        ∧ (isUserInCooldown 1000 worldInCooldown.tracker 8 = true → 1 ≤ minutes))
      ∧ isUserInCooldown 1000 worldInCooldown.tracker 8 = true
      ∧ ceilDiv (getCooldownTime 1000 worldInCooldown.tracker 8) 60000 = 5 :=
  ⟨cooldown_checked_first (config sampleEnv) sampleCollaborators threeFailures 1000 1000 1000 8
      worldInCooldown rfl
      (by
        intro op hop
        simp only [threeFailures, List.mem_cons, List.mem_singleton, List.not_mem_nil,
          or_false] at hop
        rcases hop with h | h | h <;> rw [h] <;> simp [TrackerOp.notAfter])
      (by decide),
   by decide, by decide⟩

/-- C13 as stated fails.  User 8 is in cooldown until 300030.  The handler starts at
clock reading 300029, so `isUserInCooldown` is true; `getCooldownTime` reads the clock
again, at 300030, and finds 0 ms remaining.  Both handlers make no query and change
nothing, but the wait they announce is 0 minutes, not at least 1. -/
theorem cooldown_checked_first_counterexample :
    isUserInCooldown 300029 worldInCooldown.tracker 8 = true
      ∧ (verifyCommand (config sampleEnv) sampleCollaborators 300029 300030 300030 8
          worldInCooldown).2
        = worldInCooldown.after [Event.transport (.reply (.waitBeforeVerify 0))]
      ∧ (checkMembershipAction (config sampleEnv) sampleCollaborators 300029 300030 300030 8
          worldInCooldown).2
        = worldInCooldown.after [Event.transport (.answerCbQuery (.waitBeforeRetry 0))]
      ∧ ¬ ((1 : Int) ≤ ceilDiv (getCooldownTime 300030 worldInCooldown.tracker 8) 60000) := by
  have hv := verifyCommand_inCooldown (config sampleEnv) sampleCollaborators 300029 300030
    300030 8 worldInCooldown (by decide)
  have hc := checkMembershipAction_inCooldown (config sampleEnv) sampleCollaborators 300029
    300030 300030 8 worldInCooldown (by decide)
  have hz : ceilDiv (getCooldownTime 300030 worldInCooldown.tracker 8) 60000 = 0 := by decide
  rw [hz] at hv hc
  exact ⟨by decide, hv, hc, by rw [hz]; decide⟩

/-! ## The background verification check -/

theorem backgroundVerificationLoop_run (cfg : Config) (env : Collaborators) :
    ∀ (users : List UserId) (w : World),
      backgroundVerificationLoop cfg env users w
        = (.ok (),
           { w with
             tracker := { w.tracker with
               verifiedUsers := w.tracker.verifiedUsers.filter
                 (fun v => !(decide (v ∈ users) && !membershipSatisfied cfg env v)) },
             trace := w.trace ++ sweepQueries cfg users }) := by
  intro users
  induction users with
  | nil => intro w; simp [backgroundVerificationLoop, run_pure, sweepQueries]
  | cons u rest ih =>
    intro w
    cases hs : membershipSatisfied cfg env u
    · simp only [backgroundVerificationLoop, run_bind, getUserMembershipStatus_run,
        allRequiredJoinedOf_queried, hs, Act.modifyTracker, ih, World.after, sweepQueries,
        JsSet.delete, List.filter_filter, Bool.not_false, if_true, List.append_assoc,
        membershipQueries]
      congr 3
      apply List.filter_congr
      intro v _
      by_cases hv : v = u
      · subst hv; simp [hs]
      · simp [hv]
    · simp only [backgroundVerificationLoop, run_bind, getUserMembershipStatus_run,
        allRequiredJoinedOf_queried, hs, ih, World.after, sweepQueries, Bool.not_true,
        Bool.false_eq_true, if_false, run_pure, List.append_assoc, membershipQueries]
      congr 3
      apply List.filter_congr
      intro v _
      by_cases hv : v = u
      · subst hv; simp [hs]
      · simp [hv]

/-- C14 (the re-validation sweep is a passive demotion).  For every state and every
answer of the membership collaborator, one pass of the background verification check
ends without an exception, and afterwards: the verified set is the previous verified
set restricted to the users whose required channels are all joined (so no user is
added); the failed attempts and the cooldowns of every user, demoted ones included, are
unchanged; and the only events are the membership queries for the previously verified
users. -/
theorem sweep_is_passive_demotion (cfg : Config) (env : Collaborators) (w : World) :
    (backgroundVerificationCheck cfg env w).1 = .ok ()
      ∧ (backgroundVerificationCheck cfg env w).2.tracker.verifiedUsers
        = w.tracker.verifiedUsers.filter (fun v => membershipSatisfied cfg env v)
      ∧ (backgroundVerificationCheck cfg env w).2.tracker.verificationAttempts
        = w.tracker.verificationAttempts
      ∧ (backgroundVerificationCheck cfg env w).2.tracker.verificationCooldowns
        = w.tracker.verificationCooldowns
      ∧ (backgroundVerificationCheck cfg env w).2.trace
        = w.trace ++ sweepQueries cfg w.tracker.verifiedUsers := by
  have hrun : backgroundVerificationCheck cfg env w
      = (.ok (),
         { w with
           tracker := { w.tracker with
             verifiedUsers := w.tracker.verifiedUsers.filter
               (fun v => !(decide (v ∈ w.tracker.verifiedUsers)
                 && !membershipSatisfied cfg env v)) },
           trace := w.trace ++ sweepQueries cfg w.tracker.verifiedUsers }) := by
    simp only [backgroundVerificationCheck, Act.tryCatch, run_bind, Act.world,
      backgroundVerificationLoop_run]
  rw [hrun]
  refine ⟨rfl, ?_, rfl, rfl, rfl⟩
  apply List.filter_congr
  intro v hv
  simp [hv]

/-- C14 on a world in which users 7 and 8 are verified: with the sample collaborators
user 7 still has every required channel and user 8 does not, so one pass leaves
exactly user 7 verified. -/
theorem sweep_is_passive_demotion_witness :
    (backgroundVerificationCheck (config sampleEnv) sampleCollaborators
        { World.initial with
          tracker := addVerifiedUser (addVerifiedUser Tracker.initial 7) 8 }).2.tracker.verifiedUsers
      = [7] := by
  rw [(sweep_is_passive_demotion (config sampleEnv) sampleCollaborators
    { World.initial with tracker := addVerifiedUser (addVerifiedUser Tracker.initial 7) 8 }).2.1]
  rfl

/-! ## The periodic cleanup of the temp directory -/

/-- C15 as amended (the temp-storage GC removes the temp root).  For every file system
and whatever the ages of the entries: if the temp root is a directory, one run of the
periodic cleanup removes the temp root itself and every entry inside it, and leaves
every other path as it was; if the temp root does not exist, the run changes
nothing. -/
theorem temp_gc_removes_root (cfg : Config) (fs : AgedFileSystem) :
    (∀ root, fs cfg.storage.tempDir = some root → root.isDirectory = true →
        periodicTempCleanup cfg fs cfg.storage.tempDir = none
          ∧ (∀ p, isUnder cfg.storage.tempDir p = true → periodicTempCleanup cfg fs p = none)
          ∧ (∀ p, p ≠ cfg.storage.tempDir → isUnder cfg.storage.tempDir p = false →
              periodicTempCleanup cfg fs p = fs p))
      ∧ (fs cfg.storage.tempDir = none → periodicTempCleanup cfg fs = fs) := by
  constructor
  · intro root hroot hdir
    refine ⟨?_, ?_, ?_⟩
    · simp [periodicTempCleanup, cleanupTempFiles, hroot, hdir, rmSyncRecursive]
    · intro p hp
      simp [periodicTempCleanup, cleanupTempFiles, hroot, hdir, rmSyncRecursive, hp]
    · intro p hne hp
      simp [periodicTempCleanup, cleanupTempFiles, hroot, hdir, rmSyncRecursive, hp, hne]
  · intro hnone
    simp [periodicTempCleanup, cleanupTempFiles, hnone]

/-- C15 as amended, on the sample temp directory: the run removes the directory and the
artifact inside it. -/
theorem temp_gc_removes_root_witness :
    periodicTempCleanup (config sampleEnv) sampleTempFs (config sampleEnv).storage.tempDir = none
      ∧ (∀ p, isUnder (config sampleEnv).storage.tempDir p = true →
          periodicTempCleanup (config sampleEnv) sampleTempFs p = none)
      ∧ (∀ p, p ≠ (config sampleEnv).storage.tempDir →
          isUnder (config sampleEnv).storage.tempDir p = false →
          periodicTempCleanup (config sampleEnv) sampleTempFs p = sampleTempFs p) :=
  (temp_gc_removes_root (config sampleEnv) sampleTempFs).1
    { isDirectory := true, mtimeMs := 0 } (by decide) rfl

/-- C15 as stated fails.  At time 3600000 the artifact in the sample temp directory is
1 ms old, younger than any retention threshold of an hour (the cleanup interval), and
lies inside the temp root; after one run of the periodic cleanup neither the artifact
nor the temp root exists. -/
theorem temp_gc_counterexample :
    sampleTempFs "/tmp/terabox_downloads/terabox_1700000000000_ab12cd.zip"
        = some { isDirectory := false, mtimeMs := 3599999 }
      ∧ FsEntry.age 3600000 { isDirectory := false, mtimeMs := 3599999 } < 3600000
      ∧ isUnder (config sampleEnv).storage.tempDir
          "/tmp/terabox_downloads/terabox_1700000000000_ab12cd.zip" = true
      ∧ periodicTempCleanup (config sampleEnv) sampleTempFs
          "/tmp/terabox_downloads/terabox_1700000000000_ab12cd.zip" = none
      ∧ periodicTempCleanup (config sampleEnv) sampleTempFs
          (config sampleEnv).storage.tempDir = none := by
  refine ⟨by decide, by decide, by decide, by decide, by decide⟩

/-! ## Calls of downloadFile in flight -/

theorem DownloadStep.apply_total (d : Downloads) (step : DownloadStep) :
    (step.apply d).waiting.length + (step.apply d).inFlight.length
      ≤ d.waiting.length + d.inFlight.length := by
  cases step with
  | enter job =>
    by_cases h : job ∈ d.waiting
    · have hpos : 0 < d.waiting.length := List.length_pos_of_mem h
      simp only [DownloadStep.apply, h, if_true, List.length_erase_of_mem h, List.length_append,
        List.length_singleton]
      omega
    · simp [DownloadStep.apply, h]
  | resume job =>
    by_cases h : job ∈ d.inFlight
    · simp only [DownloadStep.apply, h, if_true, List.length_erase_of_mem h]
      omega
    · simp [DownloadStep.apply, h]

theorem Downloads.run_total (steps : List DownloadStep) :
    ∀ d : Downloads, (d.run steps).waiting.length + (d.run steps).inFlight.length
      ≤ d.waiting.length + d.inFlight.length := by
  induction steps with
  | nil => intro d; exact le_refl _
  | cons step rest ih =>
    intro d
    exact le_trans (ih (step.apply d)) (DownloadStep.apply_total d step)

theorem Downloads.run_enter_all (jobs : List Nat) :
    ∀ inFlight : List Nat,
      Downloads.run { waiting := jobs, inFlight := inFlight } (jobs.map DownloadStep.enter)
        = { waiting := [], inFlight := inFlight ++ jobs } := by
  induction jobs with
  | nil => intro inFlight; simp [Downloads.run]
  | cons job rest ih =>
    intro inFlight
    have := ih (inFlight ++ [job])
    simp only [Downloads.run, List.map_cons, List.foldl_cons, DownloadStep.apply,
      List.mem_cons, true_or, if_true, List.erase_cons_head] at this ⊢
    rw [this]
    simp

/-- C16 as amended (no bound on the calls of `downloadFile` in flight).  For every set of
launched jobs and every interleaving of their steps, the number of calls in flight is at
most the number of jobs launched; and this bound is reached: if every launched job
calls `downloadFile` before any call returns, all of them are in flight at once.
`config.terabox.concurrentDownloads` plays no part. -/
theorem downloads_in_flight_unbounded (jobs : List Nat) :
    (∀ steps : List DownloadStep,
        ((Downloads.launched jobs).run steps).inFlight.length ≤ jobs.length)
      ∧ ((Downloads.launched jobs).run (jobs.map DownloadStep.enter)).inFlight.length
        = jobs.length := by
  constructor
  · intro steps
    have := Downloads.run_total steps (Downloads.launched jobs)
    simp only [Downloads.launched, List.length_nil, Nat.add_zero] at this
    simp only [Downloads.launched]
    omega
  · simp [Downloads.launched, Downloads.run_enter_all]

/-- C16 as stated fails.  With the shipped `concurrentDownloads = 3`, launch four jobs
and let each call `downloadFile` before any timer fires: four calls are in flight. -/
theorem downloads_in_flight_counterexample :
    (config sampleEnv).terabox.concurrentDownloads = 3
      ∧ ((Downloads.launched [0, 1, 2, 3]).run
          [.enter 0, .enter 1, .enter 2, .enter 3]).inFlight = [0, 1, 2, 3]
      ∧ ¬ (((Downloads.launched [0, 1, 2, 3]).run
            [.enter 0, .enter 1, .enter 2, .enter 3]).inFlight.length
          ≤ (config sampleEnv).terabox.concurrentDownloads) := by
  refine ⟨rfl, by decide, by decide⟩

end TeraboxBot
